import Mathlib

/-!
The dex-server matching-engine dispatcher and recovery loader

A shallow embedding of `engine/engine.go` (`Engine.HandleOrders`, its four
handlers and `Engine.SyncOrderBook`).  The order book itself, the JSON decoder,
the order store and the message bus are collaborators whose code is outside the
embedded file; they appear as the fields of `Env`, total functions over an
arbitrary collaborator state `σ`.  Every effect the engine performs is appended
to a trace, so that statements such as "invokes exactly one book operation" are
statements about the trace.

The file also embeds `NewEngine` and the topic derivation of `Engine.GetFeed`
from the same source file, `buildTransaction` of `swap/tomochain/transactions.go`,
`updateTokenRelayer` of `services/relayer.go` and
`handleGetAccountTokenBalance` of `endpoints/accounts.go`, each with its own
collaborators as parameters.
-/

set_option autoImplicit false

namespace DexEngine

/-! ## Data model -/

/-- A Go byte slice. -/
abbrev Bytes := List (Fin 256)

/-- A non-nil Go `error` value; a nilable `error` is `Option GoError`. -/
structure GoError where
  msg : String
deriving DecidableEq, Repr

/-- Go `errors.New`. -/
def errorsNew (msg : String) : GoError := ⟨msg⟩

/-- Modelled from the spec: `types.Order`, whose declaration is outside the
embedded source; fields as listed in the data model (identifier, pair identity,
side, type, price, amount, filled amount, status). -/
structure Order where
  Hash : String
  BaseToken : String
  QuoteToken : String
  Side : String
  OrderType : String
  Status : String
  PricePoint : Nat
  Amount : Nat
  FilledAmount : Nat
deriving DecidableEq, Repr

/-- Modelled from the spec: `types.Trade`, whose declaration is outside the
embedded source (taker order id, maker order id, executed price and amount). -/
structure Trade where
  TakerOrderHash : String
  MakerOrderHash : String
  PricePoint : Nat
  Amount : Nat
deriving DecidableEq, Repr

/-- Modelled from the spec: `types.Matches`, whose declaration is outside the
embedded source: a bundle of a taker order and the maker trades. -/
structure Matches where
  TakerOrder : Option Order
  Trades : List Trade
deriving DecidableEq, Repr

/-- Modelled from the spec: `types.EngineResponse`, whose declaration is outside
the embedded source: a status string, the updated order (a nilable pointer) and
the matches produced (a nilable pointer). -/
structure EngineResponse where
  Status : String
  Order : Option Order
  Matches : Option Matches
deriving DecidableEq, Repr

/-- The Go composite literal `types.EngineResponse{}`: every field at its zero
value. -/
def EngineResponse.zero : EngineResponse := ⟨"", none, none⟩

/-- Modelled from the spec: `types.Pair`, whose declaration is outside the
embedded source: the base and quote token addresses. -/
structure Pair where
  BaseTokenAddress : String
  QuoteTokenAddress : String
deriving DecidableEq, Repr

/-- Modelled from the spec: `rabbitmq.Message`, whose declaration is outside the
embedded source: an envelope with a type tag (Go field `Type`, a reserved word here) and a
serialized payload. -/
structure Message where
  MsgType : String
  Data : Bytes
deriving DecidableEq, Repr

/-- Modelled from the spec: the `OrderBook` struct, whose declaration is outside
the embedded source.  `addr` is the identity of the heap object a `*OrderBook`
points to; `topic` is the field `SyncOrderBook` reads. -/
structure OrderBook where
  addr : Nat
  topic : String
deriving DecidableEq, Repr

/-- The `Engine` struct: `orderbooks map[string]*OrderBook` as an association
list (a key that is absent reads as the nil pointer, `none`). -/
structure Engine where
  orderbooks : List (String × OrderBook)
deriving DecidableEq, Repr

/-- Go map read `e.orderbooks[code]`. -/
def Engine.book (e : Engine) (code : String) : Option OrderBook :=
  e.orderbooks.lookup code

/-! ## Effects -/

/-- The methods of `*OrderBook` the engine calls. -/
inductive BookOp where
  | newOrder
  | cancelOrder
  | invalidateMakerOrders
  | invalidateTakerOrders
  | sellOrder
  | buyOrder
deriving DecidableEq, Repr

/-- The argument of a book method: an order or a matches bundle. -/
inductive Payload where
  | order (o : Order)
  | matches (m : Matches)
deriving DecidableEq, Repr

/-- One observable effect of the engine, with the value the collaborator
returned. -/
inductive Event where
  /-- Go `logger.Error(err)` -/
  | logError (err : Option GoError)
  /-- Go `logger.Error("Unknown message", msg)` -/
  | logUnknown (msg : Message)
  /-- Go `logger.Debugf("*#####%s", code)` -/
  | logDebug (code : String)
  /-- Go `json.Unmarshal(bytes, _)` -/
  | unmarshal (bytes : Bytes)
  /-- a method call on a book; `res` is nil for the methods that return only an
  error -/
  | book (op : BookOp) (ob : OrderBook) (arg : Payload)
      (res : Option EngineResponse) (err : Option GoError)
  /-- Go `ob.orderDao.GetNewOrders(topic)` -/
  | getNewOrders (topic : String) (orders : List Order) (err : Option GoError)
  /-- Go `ob.rabbitMQConn.PublishEngineResponse(res)` -/
  | publish (res : Option EngineResponse) (err : Option GoError)
deriving DecidableEq, Repr

/-- The collaborators of the engine, over a collaborator state `σ` (the books'
contents, the store, the bus). -/
structure Env (σ : Type) where
  /-- Go `json.Unmarshal` into a `types.Order` -/
  unmarshalOrder : Bytes → Except GoError Order
  /-- Go `json.Unmarshal` into a `types.Matches` -/
  unmarshalMatches : Bytes → Except GoError Matches
  /-- Go `(*types.Order).PairCode` -/
  orderPairCode : Order → Except GoError String
  /-- Go `(*types.Matches).PairCode` -/
  matchesPairCode : Matches → Except GoError String
  /-- Go `(*types.Pair).Code` -/
  pairCode : Pair → String
  /-- Go `(*OrderBook).newOrder` -/
  newOrder : OrderBook → Order → σ → Option GoError × σ
  /-- Go `(*OrderBook).cancelOrder` -/
  cancelOrder : OrderBook → Order → σ → Option GoError × σ
  /-- Go `(*OrderBook).invalidateMakerOrders` -/
  invalidateMakerOrders : OrderBook → Matches → σ → Option GoError × σ
  /-- Go `(*OrderBook).invalidateTakerOrders` -/
  invalidateTakerOrders : OrderBook → Matches → σ → Option GoError × σ
  /-- Go `(*OrderBook).sellOrder` -/
  sellOrder : OrderBook → Order → σ → (Option EngineResponse × Option GoError) × σ
  /-- Go `(*OrderBook).buyOrder` -/
  buyOrder : OrderBook → Order → σ → (Option EngineResponse × Option GoError) × σ
  /-- Go `OrderDao.GetNewOrders` -/
  getNewOrders : String → σ → (List Order × Option GoError) × σ
  /-- Go `(*rabbitmq.Connection).PublishEngineResponse` -/
  publishEngineResponse : Option EngineResponse → σ → Option GoError × σ

/-- The state a run threads: the collaborators' state and the effects performed
so far, oldest first. -/
structure St (σ : Type) where
  ext : σ
  trace : List Event

/-- Append one effect to the trace. -/
def St.emit {σ : Type} (s : St σ) (ev : Event) : St σ :=
  { s with trace := s.trace ++ [ev] }

/-! ## The dispatcher -/

/-- Go `Engine.handleNewOrder`. -/
def handleNewOrder {σ : Type} (W : Env σ) (e : Engine) (bytes : Bytes) (s : St σ) :
    Option GoError × St σ :=
  let s := s.emit (.unmarshal bytes)
  match W.unmarshalOrder bytes with
  | .error err => (some err, s.emit (.logError (some err)))
  | .ok o =>
    match W.orderPairCode o with
    | .error err => (some err, s.emit (.logError (some err)))
    | .ok code =>
      match e.book code with
      | none => (some (errorsNew "Orderbook error"), s)
      | some ob =>
        match W.newOrder ob o s.ext with
        | (some err, x) =>
          (some err,
            ({ s with ext := x }.emit (.book .newOrder ob (.order o) none (some err))).emit
              (.logError (some err)))
        | (none, x) => (none, { s with ext := x }.emit (.book .newOrder ob (.order o) none none))

/-- Go `Engine.handleCancelOrder`. -/
def handleCancelOrder {σ : Type} (W : Env σ) (e : Engine) (bytes : Bytes) (s : St σ) :
    Option GoError × St σ :=
  let s := s.emit (.unmarshal bytes)
  match W.unmarshalOrder bytes with
  | .error err => (some err, s.emit (.logError (some err)))
  | .ok o =>
    match W.orderPairCode o with
    | .error err => (some err, s.emit (.logError (some err)))
    | .ok code =>
      match e.book code with
      | none => (some (errorsNew "Orderbook error"), s)
      | some ob =>
        match W.cancelOrder ob o s.ext with
        | (some err, x) =>
          (some err,
            ({ s with ext := x }.emit (.book .cancelOrder ob (.order o) none (some err))).emit
              (.logError (some err)))
        | (none, x) =>
          (none, { s with ext := x }.emit (.book .cancelOrder ob (.order o) none none))

/-- Go `Engine.handleInvalidateMakerOrders`. -/
def handleInvalidateMakerOrders {σ : Type} (W : Env σ) (e : Engine) (bytes : Bytes)
    (s : St σ) : Option GoError × St σ :=
  let s := s.emit (.unmarshal bytes)
  match W.unmarshalMatches bytes with
  | .error err => (some err, s.emit (.logError (some err)))
  | .ok m =>
    match W.matchesPairCode m with
    | .error err => (some err, s.emit (.logError (some err)))
    | .ok code =>
      match e.book code with
      | none => (some (errorsNew "Orderbook error"), s)
      | some ob =>
        match W.invalidateMakerOrders ob m s.ext with
        | (some err, x) =>
          (some err,
            ({ s with ext := x }.emit
              (.book .invalidateMakerOrders ob (.matches m) none (some err))).emit
              (.logError (some err)))
        | (none, x) =>
          (none,
            { s with ext := x }.emit (.book .invalidateMakerOrders ob (.matches m) none none))

/-- Go `Engine.handleInvalidateTakerOrders`.  When the book is nil the function
logs and returns `err`, which at that point still holds the nil result of
`m.PairCode()`. -/
def handleInvalidateTakerOrders {σ : Type} (W : Env σ) (e : Engine) (bytes : Bytes)
    (s : St σ) : Option GoError × St σ :=
  let s := s.emit (.unmarshal bytes)
  match W.unmarshalMatches bytes with
  | .error err => (some err, s.emit (.logError (some err)))
  | .ok m =>
    match W.matchesPairCode m with
    | .error err => (some err, s.emit (.logError (some err)))
    | .ok code =>
      match e.book code with
      | none => (none, s.emit (.logError none))
      | some ob =>
        match W.invalidateTakerOrders ob m s.ext with
        | (some err, x) =>
          (some err,
            ({ s with ext := x }.emit
              (.book .invalidateTakerOrders ob (.matches m) none (some err))).emit
              (.logError (some err)))
        | (none, x) =>
          (none,
            { s with ext := x }.emit (.book .invalidateTakerOrders ob (.matches m) none none))

/-- The tail of each `case` of `HandleOrders`: a non-nil handler error is logged
and returned, otherwise control leaves the `switch` and nil is returned. -/
def afterHandler {σ : Type} (r : Option GoError × St σ) : Option GoError × St σ :=
  match r with
  | (some err, s) => (some err, s.emit (.logError (some err)))
  | (none, s) => (none, s)

/-- Go `Engine.HandleOrders`. -/
def HandleOrders {σ : Type} (W : Env σ) (e : Engine) (msg : Message) (s : St σ) :
    Option GoError × St σ :=
  if msg.MsgType = "NEW_ORDER" then afterHandler (handleNewOrder W e msg.Data s)
  else if msg.MsgType = "CANCEL_ORDER" then afterHandler (handleCancelOrder W e msg.Data s)
  else if msg.MsgType = "INVALIDATE_MAKER_ORDERS" then
    afterHandler (handleInvalidateMakerOrders W e msg.Data s)
  else if msg.MsgType = "INVALIDATE_TAKER_ORDERS" then
    afterHandler (handleInvalidateTakerOrders W e msg.Data s)
  else (none, s.emit (.logUnknown msg))

/-! ## The recovery loader -/

/-- How a call ends: it returns a (nilable) error, or it dereferences a nil
pointer and the goroutine faults. -/
inductive Outcome where
  | returned (err : Option GoError)
  | nilDeref
deriving DecidableEq, Repr

/-- The call `ob.rabbitMQConn.PublishEngineResponse(res)` closing each loop
iteration, with its error check. -/
def publishResponse {σ : Type} (W : Env σ) (res : Option EngineResponse) (s : St σ) :
    Option GoError × St σ :=
  match W.publishEngineResponse res s.ext with
  | (some err, x) =>
    (some err, ({ s with ext := x }.emit (.publish res (some err))).emit (.logError (some err)))
  | (none, x) => (none, { s with ext := x }.emit (.publish res none))

/-- One iteration of the `for _, o := range orders` loop of `SyncOrderBook`:
`res` starts as `&types.EngineResponse{}`, is replaced by the book's response
for a SELL or a BUY order, and is then published.  The result is the error the
iteration returns with, or nil when the loop goes on. -/
def syncOrder {σ : Type} (W : Env σ) (ob : OrderBook) (o : Order) (s : St σ) :
    Option GoError × St σ :=
  if o.Side = "SELL" then
    match W.sellOrder ob o s.ext with
    | ((res, some err), x) =>
      (some err,
        ({ s with ext := x }.emit (.book .sellOrder ob (.order o) res (some err))).emit
          (.logError (some err)))
    | ((res, none), x) =>
      publishResponse W res ({ s with ext := x }.emit (.book .sellOrder ob (.order o) res none))
  else if o.Side = "BUY" then
    match W.buyOrder ob o s.ext with
    | ((res, some err), x) =>
      (some err,
        ({ s with ext := x }.emit (.book .buyOrder ob (.order o) res (some err))).emit
          (.logError (some err)))
    | ((res, none), x) =>
      publishResponse W res ({ s with ext := x }.emit (.book .buyOrder ob (.order o) res none))
  else publishResponse W (some EngineResponse.zero) s

/-- The `for _, o := range orders` loop of `SyncOrderBook`: the error that ends
it early, or nil when every iteration completed. -/
def syncLoop {σ : Type} (W : Env σ) (ob : OrderBook) :
    List Order → St σ → Option GoError × St σ
  | [], s => (none, s)
  | o :: rest, s =>
    match syncOrder W ob o s with
    | (some err, s1) => (some err, s1)
    | (none, s1) => syncLoop W ob rest s1

/-- Go `Engine.SyncOrderBook`.  The book is read from the map without a nil check,
so `ob.topic` faults when the pair has no book. -/
def SyncOrderBook {σ : Type} (W : Env σ) (e : Engine) (p : Pair) (s : St σ) :
    Outcome × St σ :=
  let s := s.emit (.logDebug (W.pairCode p))
  match e.book (W.pairCode p) with
  | none => (.nilDeref, s)
  | some ob =>
    if ob.topic = "" then (.returned (some (errorsNew "Orderbook topic is missing")), s)
    else
      match W.getNewOrders ob.topic s.ext with
      | ((orders, some err), x) =>
        (.returned (some err),
          ({ s with ext := x }.emit (.getNewOrders ob.topic orders (some err))).emit
            (.logError (some err)))
      | ((orders, none), x) =>
        match syncLoop W ob orders ({ s with ext := x }.emit (.getNewOrders ob.topic orders none)) with
        | (err, s1) => (.returned err, s1)

/-! ## The live path over several messages -/

/-- Modelled from the spec: the bus consumer (`consume(handler)`, outside the
embedded source) handing typed messages to `HandleOrders` one at a time, in
order; the error a delivery returns only governs redelivery of that message. -/
def deliver {σ : Type} (W : Env σ) (e : Engine) : List Message → St σ → St σ
  | [], s => s
  | m :: ms, s => deliver W e ms (HandleOrders W e m s).2

/-! ## Reading a trace -/

/-- The book method calls of a trace, in order: method, book and argument. -/
def bookCalls : List Event → List (BookOp × OrderBook × Payload)
  | [] => []
  | .book op ob arg _ _ :: t => (op, ob, arg) :: bookCalls t
  | _ :: t => bookCalls t

/-- The book method calls of a trace, in order, each with the engine response
it returned. -/
def bookReturns : List Event → List ((BookOp × OrderBook × Payload) × Option EngineResponse)
  | [] => []
  | .book op ob arg res _ :: t => ((op, ob, arg), res) :: bookReturns t
  | _ :: t => bookReturns t

/-- The engine responses handed to `PublishEngineResponse`, in order. -/
def published : List Event → List (Option EngineResponse)
  | [] => []
  | .publish res _ :: t => res :: published t
  | _ :: t => published t

/-- The byte slices handed to `json.Unmarshal`, in order. -/
def decoded : List Event → List Bytes
  | [] => []
  | .unmarshal b :: t => b :: decoded t
  | _ :: t => decoded t

/-- The topics the order store was asked for, in order. -/
def storeCalls : List Event → List String
  | [] => []
  | .getNewOrders topic _ _ :: t => topic :: storeCalls t
  | _ :: t => storeCalls t

/-- The error a call event came back with; nil for the events that are not
calls to the book, the store or the bus. -/
def Event.callError : Event → Option GoError
  | .book _ _ _ _ err => err
  | .getNewOrders _ _ err => err
  | .publish _ err => err
  | _ => none

/-! ## A concrete engine, for evaluating the definitions -/

/-- A toy wire format: three bytes giving the side (0 SELL, 1 BUY, other
values an unknown side), the amount, and the base token (0 none, 1 the listed
token `0xB`, other values the unlisted token `0xC`). -/
def sampleDecodeOrder : Bytes → Except GoError Order
  | [sd, amt, tok] =>
    .ok ⟨"0xA", if tok = 0 then "" else if tok = 1 then "0xB" else "0xC", "0xQ",
      if sd = 0 then "SELL" else if sd = 1 then "BUY" else "HOLD", "LIMIT", "NEW", 100,
      amt.val, 0⟩
  | _ => .error ⟨"unexpected end of JSON input"⟩

/-- The toy wire format for a matches bundle: the taker order alone. -/
def sampleDecodeMatches (b : Bytes) : Except GoError Matches :=
  match sampleDecodeOrder b with
  | .ok o => .ok ⟨some o, []⟩
  | .error err => .error err

/-- Pair code of an order: fails when the base token is missing. -/
def samplePairCode (o : Order) : Except GoError String :=
  if o.BaseToken = "" then .error ⟨"Base token is nil"⟩
  else .ok (o.BaseToken ++ "/" ++ o.QuoteToken)

/-- A book operation of the sample engine: it rejects an amount of zero and
otherwise counts the accepted operations. -/
def sampleBookOp (amount : Nat) (x : Nat) : Option GoError × Nat :=
  if amount = 0 then (some ⟨"invalid amount"⟩, x) else (none, x + 1)

/-- The sample engine's `sellOrder` and `buyOrder`: an amount of zero is
rejected, any other order is added. -/
def samplePlace (o : Order) (x : Nat) : (Option EngineResponse × Option GoError) × Nat :=
  if o.Amount = 0 then ((none, some ⟨"invalid amount"⟩), x)
  else ((some ⟨"ORDER_ADDED", some o, none⟩, none), x + 1)

/-- Sample collaborators over a counter of accepted operations; `pending` is
what the store holds, and the store is unreachable for the topic `offline`. -/
def sampleEnv (pending : List Order) : Env Nat where
  unmarshalOrder := sampleDecodeOrder
  unmarshalMatches := sampleDecodeMatches
  orderPairCode := samplePairCode
  matchesPairCode := fun m =>
    match m.TakerOrder with
    | some o => samplePairCode o
    | none => .error ⟨"No taker order"⟩
  pairCode := fun p => p.BaseTokenAddress ++ "/" ++ p.QuoteTokenAddress
  newOrder := fun _ o x => sampleBookOp o.Amount x
  cancelOrder := fun _ o x => sampleBookOp o.Amount x
  invalidateMakerOrders := fun _ m x => sampleBookOp ((m.TakerOrder.map (·.Amount)).getD 0) x
  invalidateTakerOrders := fun _ m x => sampleBookOp ((m.TakerOrder.map (·.Amount)).getD 0) x
  sellOrder := fun _ o x => samplePlace o x
  buyOrder := fun _ o x => samplePlace o x
  getNewOrders := fun topic x =>
    if topic = "offline" then (([], some ⟨"store unavailable"⟩), x) else ((pending, none), x)
  publishEngineResponse := fun _ x => (none, x + 1)

/-- The book of the pair `0xB/0xQ`. -/
def sampleBook : OrderBook := ⟨1, "0xB/0xQ"⟩

/-- An engine with one registered pair, `0xB/0xQ`. -/
def sampleEngine : Engine := ⟨[("0xB/0xQ", sampleBook)]⟩

/-- An order of the pair `0xB/0xQ` with the given side and amount. -/
def sampleOrder (side : String) (amount : Nat) : Order :=
  ⟨"0xA", "0xB", "0xQ", side, "LIMIT", "NEW", 100, amount, 0⟩

/-! ## Engine start-up -/

/-- Go map assignment `obs[k] = v` on the association-list model of the map: the
entry of `k` is replaced, or added when there is none; every other entry is
kept. -/
def mapStore (m : List (String × OrderBook)) (k : String) (v : OrderBook) :
    List (String × OrderBook) :=
  (k, v) :: m.filter (fun kv => kv.1 != k)

/-- How `NewEngine` ends: with an engine, or in `panic(err)`. -/
inductive Startup where
  | started (e : Engine)
  | panicked (err : GoError)
deriving DecidableEq, Repr

/-- The loop `for _, p := range pairs` of `NewEngine`.  `NewOrderBook` is outside
the embedded source; its first argument is the number of books allocated before
the call, which stands for the fresh heap object each call returns. -/
def newEngineLoop {σ : Type} (W : Env σ) (NewOrderBook : Nat → Pair → OrderBook) :
    List Pair → Nat → List (String × OrderBook) → List (String × OrderBook)
  | [], _, obs => obs
  | p :: rest, n, obs =>
    newEngineLoop W NewOrderBook rest (n + 1) (mapStore obs (W.pairCode p) (NewOrderBook n p))

/-- Go `NewEngine`; `getAll` is what `pairDao.GetAll()` returned. -/
def NewEngine {σ : Type} (W : Env σ) (NewOrderBook : Nat → Pair → OrderBook)
    (getAll : List Pair × Option GoError) : Startup :=
  match getAll with
  | (_, some err) => .panicked err
  | (pairs, none) => .started ⟨newEngineLoop W NewOrderBook pairs 0 []⟩

/-! ## The feed topic -/

/-- The constant `feed.TopicLength` of the swarm feed package: a `feed.Topic`
is a `[32]byte`. -/
def TopicLength : Int := 32

/-- Go `copy(dst, src)`: the contents of `dst` afterwards; the number of bytes
copied is the smaller of the two lengths. -/
def goCopy (dst src : Bytes) : Bytes :=
  src.take dst.length ++ dst.drop src.length

/-- What the first lines of `GetFeed` compute: the topic array, and whether the
branch `startIndex < 0` was taken. -/
structure FeedTopic where
  topic : Bytes
  clamped : Bool
deriving DecidableEq, Repr

/-- The topic derivation opening `Engine.GetFeed`, up to
`copy(topic[startIndex:], bytesTopic[0:topicLength])`.  The result is `none`
when a slice expression is out of range; the bound checked for
`bytesTopic[0:topicLength]` is the length, which the capacity is at least. -/
def GetFeedTopic (bytesTopic : Bytes) : Option FeedTopic :=
  let topic : Bytes := List.replicate 32 0
  let topicLength0 : Int := bytesTopic.length
  let topicLength : Int := if topicLength0 > TopicLength then TopicLength else topicLength0
  let startIndex0 : Int := TopicLength - topicLength
  let startIndex : Int := if startIndex0 < 0 then 0 else startIndex0
  if 0 ≤ startIndex ∧ startIndex ≤ 32 ∧ 0 ≤ topicLength ∧ topicLength ≤ bytesTopic.length then
    some ⟨topic.take startIndex.toNat
        ++ goCopy (topic.drop startIndex.toNat) (bytesTopic.take topicLength.toNat),
      decide (startIndex0 < 0)⟩
  else none

/-! ## Association transactions (`swap/tomochain/transactions.go`) -/

/-- The fields of `types.AssociationTransaction` that `buildTransaction` sets;
the declaration of the type is outside the embedded source. -/
structure AssociationTransaction where
  Source : String
  TransactionType : String
  Params : List String
  Hash : Bytes
  Signature : Bytes
deriving DecidableEq, Repr

/-- Go `AccountConfigurator.buildTransaction`.  `computeHash` is the method
`ComputeHash` and `sign` is `signer.Sign(rand.Reader, hash, nil)` for the
configurator's key, both outside the embedded source.  The result is the pair
`(*types.AssociationTransaction, error)`.  The test after signing is
`if err == nil { return nil, err }`. -/
def buildTransaction (computeHash : AssociationTransaction → Bytes)
    (sign : Bytes → Bytes × Option GoError) (source : String) (transactionType : String)
    (params : List String) : Option AssociationTransaction × Option GoError :=
  let tx0 : AssociationTransaction := ⟨source, transactionType, params, [], []⟩
  let tx1 : AssociationTransaction := { tx0 with Hash := computeHash tx0 }
  match sign tx1.Hash with
  | (_, none) => (none, none)
  | (signature, some _) => (some { tx1 with Signature := signature }, none)

/-- Go `AccountConfigurator.buildUnlockAccountTransaction`. -/
def buildUnlockAccountTransaction (computeHash : AssociationTransaction → Bytes)
    (sign : Bytes → Bytes × Option GoError) (source : String) :
    Option AssociationTransaction × Option GoError :=
  buildTransaction computeHash sign source "RemoveSigner" []

/-- A sample hash: the lengths of the source and of the transaction type. -/
def sampleComputeHash (tx : AssociationTransaction) : Bytes :=
  [Fin.ofNat tx.Source.length, Fin.ofNat tx.TransactionType.length]

/-- A sample signer that signs every digest. -/
def sampleSignOk (h : Bytes) : Bytes × Option GoError := (h.reverse, none)

/-- A sample signer that always fails. -/
def sampleSignFail (_ : Bytes) : Bytes × Option GoError := ([], some ⟨"no entropy"⟩)

/-! ## Relayer token synchronisation (`services/relayer.go`) -/

/-- The fields of `relayer.TokenInfo` that `updateTokenRelayer` reads. -/
structure TokenInfo where
  Symbol : String
  Decimals : Nat
deriving DecidableEq, Repr

/-- The fields of `relayer.RInfo` that `updateTokenRelayer` reads.  An address
stands for its `Hex()` string; the map `Tokens` is the list of its entries in
the order `range` visits them, with distinct keys. -/
structure RInfo where
  Address : String
  Tokens : List (String × TokenInfo)
  MakeFee : Nat
  TakeFee : Nat
deriving DecidableEq, Repr

/-- The fields of `types.Token` that `updateTokenRelayer` sets. -/
structure Token where
  Symbol : String
  ContractAddress : String
  RelayerAddress : String
  Decimals : Nat
  MakeFee : Nat
  TakeFee : Nat
deriving DecidableEq, Repr

/-- A call on the token store. -/
inductive DaoCall where
  | getAllByCoinbase (coinbase : String)
  | create (t : Token)
  | updateByTokenAndCoinbase (addr coinbase : String) (t : Token)
  | deleteByTokenAndCoinbase (addr coinbase : String)
deriving DecidableEq, Repr

/-- The methods of `interfaces.TokenDao` that `updateTokenRelayer` calls, over a
store state `σ`. -/
structure TokenDao (σ : Type) where
  GetAllByCoinbase : String → σ → (List Token × Option GoError) × σ
  Create : Token → σ → Option GoError × σ
  UpdateByTokenAndCoinbase : String → String → Token → σ → Option GoError × σ
  DeleteByTokenAndCoinbase : String → String → σ → Option GoError × σ

/-- The store state and the store calls made so far, oldest first (log lines
are not recorded). -/
structure DaoSt (σ : Type) where
  ext : σ
  calls : List DaoCall

/-- The loop `for _, ctoken := range currentTokens` of `updateTokenRelayer`:
a stored token whose address is no key of `relayerInfo.Tokens` is deleted; a
delete error is only logged. -/
def deleteStaleTokens {σ : Type} (dao : TokenDao σ) (relayerInfo : RInfo) :
    List Token → DaoSt σ → DaoSt σ
  | [], s => s
  | ctoken :: rest, s =>
    let found := relayerInfo.Tokens.any (fun kv => ctoken.ContractAddress == kv.1)
    if !found then
      deleteStaleTokens dao relayerInfo rest
        ⟨(dao.DeleteByTokenAndCoinbase ctoken.ContractAddress relayerInfo.Address s.ext).2,
          s.calls ++ [.deleteByTokenAndCoinbase ctoken.ContractAddress relayerInfo.Address]⟩
    else deleteStaleTokens dao relayerInfo rest s

/-- The loop `for ntoken, v := range relayerInfo.Tokens` of
`updateTokenRelayer`: the key is created or updated, and then, inside the same
iteration, the loop over the stored tokens runs. -/
def updateTokenLoop {σ : Type} (dao : TokenDao σ) (relayerInfo : RInfo)
    (currentTokens : List Token) : List (String × TokenInfo) → DaoSt σ → DaoSt σ
  | [], s => s
  | (ntoken, v) :: rest, s =>
    let found := currentTokens.any (fun ctoken => ntoken == ctoken.ContractAddress)
    let token : Token :=
      ⟨v.Symbol, ntoken, relayerInfo.Address, v.Decimals, relayerInfo.MakeFee,
        relayerInfo.TakeFee⟩
    let s1 : DaoSt σ :=
      if !found then
        ⟨(dao.Create token s.ext).2, s.calls ++ [.create token]⟩
      else
        ⟨(dao.UpdateByTokenAndCoinbase ntoken relayerInfo.Address token s.ext).2,
          s.calls ++ [.updateByTokenAndCoinbase ntoken relayerInfo.Address token]⟩
    updateTokenLoop dao relayerInfo currentTokens rest
      (deleteStaleTokens dao relayerInfo currentTokens s1)

/-- Go `RelayerService.updateTokenRelayer`. -/
def updateTokenRelayer {σ : Type} (dao : TokenDao σ) (relayerInfo : RInfo) (s : DaoSt σ) :
    Option GoError × DaoSt σ :=
  match dao.GetAllByCoinbase relayerInfo.Address s.ext with
  | ((_, some err), x) => (some err, ⟨x, s.calls ++ [.getAllByCoinbase relayerInfo.Address]⟩)
  | ((currentTokens, none), x) =>
    (none,
      updateTokenLoop dao relayerInfo currentTokens relayerInfo.Tokens
        ⟨x, s.calls ++ [.getAllByCoinbase relayerInfo.Address]⟩)

/-- A sample token store: the list of the stored tokens. -/
def sampleTokenDao : TokenDao (List Token) where
  GetAllByCoinbase := fun c s => ((s.filter (fun t => t.RelayerAddress == c), none), s)
  Create := fun t s => (none, s ++ [t])
  UpdateByTokenAndCoinbase := fun a c t s =>
    (none, s.map (fun u => if u.ContractAddress == a && u.RelayerAddress == c then t else u))
  DeleteByTokenAndCoinbase := fun a c s =>
    (none, s.filter (fun u => !(u.ContractAddress == a && u.RelayerAddress == c)))

/-- A stored token of the relayer `0xR`. -/
def sampleToken (addr : String) : Token := ⟨"TKN", addr, "0xR", 18, 1, 1⟩

/-! ## The account endpoint (`endpoints/accounts.go`) -/

/-- What `handleGetAccountTokenBalance` does to the response writer and the
account service. -/
inductive EndpointEvent where
  /-- Go `httputils.WriteError(w, status, msg)` -/
  | writeError (status : Nat) (msg : String)
  /-- Go `httputils.WriteJSON(w, status, b)` -/
  | writeJSON (status : Nat) (balance : Nat)
  /-- Go `e.AccountService.GetTokenBalance(addr, tokenAddr)` -/
  | getTokenBalance (addr token : String)
  /-- Go `logger.Error(err)` -/
  | logError (err : GoError)
deriving DecidableEq, Repr

/-- Go `AccountEndpoint.handleGetAccountTokenBalance`, for the path variables
`a = vars["address"]` and `t = vars["token"]`.  `isHexAddress` and
`hexToAddress` are go-ethereum's `common.IsHexAddress` and `common.HexToAddress`,
`getTokenBalance` is the account service.  Neither `if` block returns, and both
test `a`.  The status codes are `http.StatusBadRequest` 400,
`http.StatusNotFound` 404 and `http.StatusOK` 200. -/
def handleGetAccountTokenBalance (isHexAddress : String → Bool)
    (hexToAddress : String → String)
    (getTokenBalance : String → String → Nat × Option GoError) (a t : String) :
    List EndpointEvent :=
  let w1 : List EndpointEvent :=
    if !isHexAddress a then [.writeError 400 "Invalid Address"] else []
  let w2 : List EndpointEvent :=
    if !isHexAddress a then w1 ++ [.writeError 400 "Invalid Token Address"] else w1
  let addr := hexToAddress a
  let tokenAddr := hexToAddress t
  match getTokenBalance addr tokenAddr with
  | (_, some err) =>
    w2 ++ [.getTokenBalance addr tokenAddr, .logError err, .writeError 404 err.msg]
  | (b, none) => w2 ++ [.getTokenBalance addr tokenAddr, .writeJSON 200 b]

/-- The responses written, in order: status codes. -/
def responses : List EndpointEvent → List Nat
  | [] => []
  | .writeError status _ :: t => status :: responses t
  | .writeJSON status _ :: t => status :: responses t
  | _ :: t => responses t

/-- The calls of `GetTokenBalance`, in order. -/
def balanceCalls : List EndpointEvent → List (String × String)
  | [] => []
  | .getTokenBalance a t :: rest => (a, t) :: balanceCalls rest
  | _ :: rest => balanceCalls rest

/-- A toy address syntax: a string is accepted when it starts with `0x`. -/
def sampleIsHexAddress (s : String) : Bool := s.data.take 2 == ['0', 'x']

/-- A sample account service: the balance 7 for the token `0xT`, an error for
any other token. -/
def sampleGetTokenBalance (_ : String) (t : String) : Nat × Option GoError :=
  if t = "0xT" then (7, none) else (0, some ⟨"token not found"⟩)

/-! ## The running engine: the methods as statements on the receiver

The dispatcher and the recovery loader once more, this time as Go statement
sequences that run on a heap holding the `Engine` object behind the receiver
`e *Engine`.  A body is built from the three kinds of statement the source
uses (a traced effect, a read of `e.orderbooks`, a call of a collaborator), so
what a call does to the registry is computed from its body. -/

/-- The mutable objects a call works on: the `Engine` behind the receiver
`e *Engine`, and the collaborators' state with the trace. -/
structure Heap (σ : Type) where
  engine : Engine
  st : St σ

/-- A Go statement sequence: it runs on the heap and yields a value. -/
def Run (σ α : Type) : Type := Heap σ → α × Heap σ

instance instMonadRun {σ : Type} : Monad (Run σ) where
  pure a := fun h => (a, h)
  bind m f := fun h => f (m h).1 (m h).2

/-- A log line, or the record of a call, appended to the trace. -/
def Run.emit {σ : Type} (ev : Event) : Run σ Unit :=
  fun h => ((), { h with st := h.st.emit ev })

/-- Go map read `e.orderbooks[code]`: the book, or nil for an absent key. -/
def Run.readBook {σ : Type} (code : String) : Run σ (Option OrderBook) :=
  fun h => (h.engine.book code, h)

/-- A call of a collaborator, which works on the collaborators' state. -/
def Run.call {σ α : Type} (f : σ → α × σ) : Run σ α :=
  fun h => ((f h.st.ext).1, { h with st := { h.st with ext := (f h.st.ext).2 } })

/-- The statements `logger.Error(err); return err` after a failed call, or
nothing when the call returned nil. -/
def OnHeap.logAndReturn {σ : Type} (err : Option GoError) : Run σ (Option GoError) :=
  match err with
  | some err => do
    Run.emit (.logError (some err))
    pure (some err)
  | none => pure none

/-- Go `Engine.handleNewOrder`, as statements on the receiver. -/
def OnHeap.handleNewOrder {σ : Type} (W : Env σ) (bytes : Bytes) : Run σ (Option GoError) := do
  Run.emit (.unmarshal bytes)
  match W.unmarshalOrder bytes with
  | .error err => OnHeap.logAndReturn (some err)
  | .ok o =>
    match W.orderPairCode o with
    | .error err => OnHeap.logAndReturn (some err)
    | .ok code => do
      let ob ← Run.readBook code
      match ob with
      | none => pure (some (errorsNew "Orderbook error"))
      | some ob => do
        let err ← Run.call (W.newOrder ob o)
        Run.emit (.book .newOrder ob (.order o) none err)
        OnHeap.logAndReturn err

/-- Go `Engine.handleCancelOrder`, as statements on the receiver. -/
def OnHeap.handleCancelOrder {σ : Type} (W : Env σ) (bytes : Bytes) :
    Run σ (Option GoError) := do
  Run.emit (.unmarshal bytes)
  match W.unmarshalOrder bytes with
  | .error err => OnHeap.logAndReturn (some err)
  | .ok o =>
    match W.orderPairCode o with
    | .error err => OnHeap.logAndReturn (some err)
    | .ok code => do
      let ob ← Run.readBook code
      match ob with
      | none => pure (some (errorsNew "Orderbook error"))
      | some ob => do
        let err ← Run.call (W.cancelOrder ob o)
        Run.emit (.book .cancelOrder ob (.order o) none err)
        OnHeap.logAndReturn err

/-- Go `Engine.handleInvalidateMakerOrders`, as statements on the receiver. -/
def OnHeap.handleInvalidateMakerOrders {σ : Type} (W : Env σ) (bytes : Bytes) :
    Run σ (Option GoError) := do
  Run.emit (.unmarshal bytes)
  match W.unmarshalMatches bytes with
  | .error err => OnHeap.logAndReturn (some err)
  | .ok m =>
    match W.matchesPairCode m with
    | .error err => OnHeap.logAndReturn (some err)
    | .ok code => do
      let ob ← Run.readBook code
      match ob with
      | none => pure (some (errorsNew "Orderbook error"))
      | some ob => do
        let err ← Run.call (W.invalidateMakerOrders ob m)
        Run.emit (.book .invalidateMakerOrders ob (.matches m) none err)
        OnHeap.logAndReturn err

/-- Go `Engine.handleInvalidateTakerOrders`, as statements on the receiver; on a
nil book it logs and returns the nil `err` left by `m.PairCode()`. -/
def OnHeap.handleInvalidateTakerOrders {σ : Type} (W : Env σ) (bytes : Bytes) :
    Run σ (Option GoError) := do
  Run.emit (.unmarshal bytes)
  match W.unmarshalMatches bytes with
  | .error err => OnHeap.logAndReturn (some err)
  | .ok m =>
    match W.matchesPairCode m with
    | .error err => OnHeap.logAndReturn (some err)
    | .ok code => do
      let ob ← Run.readBook code
      match ob with
      | none => do
        Run.emit (.logError none)
        pure none
      | some ob => do
        let err ← Run.call (W.invalidateTakerOrders ob m)
        Run.emit (.book .invalidateTakerOrders ob (.matches m) none err)
        OnHeap.logAndReturn err

/-- Go `Engine.HandleOrders`, as statements on the receiver. -/
def OnHeap.HandleOrders {σ : Type} (W : Env σ) (msg : Message) : Run σ (Option GoError) :=
  if msg.MsgType = "NEW_ORDER" then do
    let err ← OnHeap.handleNewOrder W msg.Data
    OnHeap.logAndReturn err
  else if msg.MsgType = "CANCEL_ORDER" then do
    let err ← OnHeap.handleCancelOrder W msg.Data
    OnHeap.logAndReturn err
  else if msg.MsgType = "INVALIDATE_MAKER_ORDERS" then do
    let err ← OnHeap.handleInvalidateMakerOrders W msg.Data
    OnHeap.logAndReturn err
  else if msg.MsgType = "INVALIDATE_TAKER_ORDERS" then do
    let err ← OnHeap.handleInvalidateTakerOrders W msg.Data
    OnHeap.logAndReturn err
  else do
    Run.emit (.logUnknown msg)
    pure none

/-- The statement `err = ob.rabbitMQConn.PublishEngineResponse(res)` with its
error check, on the heap. -/
def OnHeap.publishResponse {σ : Type} (W : Env σ) (res : Option EngineResponse) :
    Run σ (Option GoError) := do
  let err ← Run.call (W.publishEngineResponse res)
  Run.emit (.publish res err)
  OnHeap.logAndReturn err

/-- One iteration of the loop of `SyncOrderBook`, on the heap. -/
def OnHeap.syncOrder {σ : Type} (W : Env σ) (ob : OrderBook) (o : Order) :
    Run σ (Option GoError) :=
  if o.Side = "SELL" then do
    let r ← Run.call (W.sellOrder ob o)
    Run.emit (.book .sellOrder ob (.order o) r.1 r.2)
    match r.2 with
    | some err => OnHeap.logAndReturn (some err)
    | none => OnHeap.publishResponse W r.1
  else if o.Side = "BUY" then do
    let r ← Run.call (W.buyOrder ob o)
    Run.emit (.book .buyOrder ob (.order o) r.1 r.2)
    match r.2 with
    | some err => OnHeap.logAndReturn (some err)
    | none => OnHeap.publishResponse W r.1
  else OnHeap.publishResponse W (some EngineResponse.zero)

/-- The loop `for _, o := range orders` of `SyncOrderBook`, on the heap. -/
def OnHeap.syncLoop {σ : Type} (W : Env σ) (ob : OrderBook) :
    List Order → Run σ (Option GoError)
  | [] => pure none
  | o :: rest => do
    let err ← OnHeap.syncOrder W ob o
    match err with
    | some err => pure (some err)
    | none => OnHeap.syncLoop W ob rest

/-- Go `Engine.SyncOrderBook`, as statements on the receiver. -/
def OnHeap.SyncOrderBook {σ : Type} (W : Env σ) (p : Pair) : Run σ Outcome := do
  Run.emit (.logDebug (W.pairCode p))
  let ob ← Run.readBook (W.pairCode p)
  match ob with
  | none => pure Outcome.nilDeref
  | some ob =>
    if ob.topic = "" then
      pure (Outcome.returned (some (errorsNew "Orderbook topic is missing")))
    else do
      let r ← Run.call (W.getNewOrders ob.topic)
      Run.emit (.getNewOrders ob.topic r.1 r.2)
      match r.2 with
      | some err => do
        Run.emit (.logError (some err))
        pure (Outcome.returned (some err))
      | none => do
        let err ← OnHeap.syncLoop W ob r.1
        pure (Outcome.returned err)

/-- A call on the running engine. -/
inductive Call where
  | handleOrders (msg : Message)
  | syncOrderBook (p : Pair)
deriving DecidableEq, Repr

/-- One call on the running engine. -/
def OnHeap.step {σ : Type} (W : Env σ) : Call → Run σ Outcome
  | .handleOrders msg => do
    let err ← OnHeap.HandleOrders W msg
    pure (Outcome.returned err)
  | .syncOrderBook p => OnHeap.SyncOrderBook W p

/-- A sequence of calls on the running engine, whatever each call's outcome. -/
def OnHeap.run {σ : Type} (W : Env σ) : List Call → Heap σ → Heap σ
  | [], h => h
  | c :: cs, h => OnHeap.run W cs (OnHeap.step W c h).2

/-- A statement sequence that leaves the `Engine` object as it found it. -/
def Run.KeepsEngine {σ α : Type} (m : Run σ α) : Prop :=
  ∀ h : Heap σ, (m h).2.engine = h.engine

/-! ## A successful recovery, as the specification describes it -/

/-- Follows the claim's words, not the source: the pending orders are placed one
after the other on the book, `sellOrder` for a SELL and `buyOrder` for a BUY, and
the response the book returned is published before the next order is placed.
The result is the list of those responses with the collaborators' final state,
or `none` when an order has another side, or a call to the book or to the bus
fails. -/
def successfulRecovery {σ : Type} (W : Env σ) (ob : OrderBook) :
    List Order → σ → Option (List (Option EngineResponse) × σ)
  | [], x => some ([], x)
  | o :: rest, x =>
    if o.Side = "SELL" then
      match W.sellOrder ob o x with
      | ((_, some _), _) => none
      | ((res, none), y) =>
        match W.publishEngineResponse res y with
        | (some _, _) => none
        | (none, z) =>
          match successfulRecovery W ob rest z with
          | none => none
          | some (rs, w) => some (res :: rs, w)
    else if o.Side = "BUY" then
      match W.buyOrder ob o x with
      | ((_, some _), _) => none
      | ((res, none), y) =>
        match W.publishEngineResponse res y with
        | (some _, _) => none
        | (none, z) =>
          match successfulRecovery W ob rest z with
          | none => none
          | some (rs, w) => some (res :: rs, w)
    else none

/-! ## Trace lemmas -/

@[simp] theorem bookCalls_append (a b : List Event) :
    bookCalls (a ++ b) = bookCalls a ++ bookCalls b := by
  induction a with
  | nil => rfl
  | cons ev t ih => cases ev <;> simp [bookCalls, ih]

@[simp] theorem bookReturns_append (a b : List Event) :
    bookReturns (a ++ b) = bookReturns a ++ bookReturns b := by
  induction a with
  | nil => rfl
  | cons ev t ih => cases ev <;> simp [bookReturns, ih]

theorem bookReturns_calls (a : List Event) : (bookReturns a).map (·.1) = bookCalls a := by
  induction a with
  | nil => rfl
  | cons ev t ih => cases ev <;> simp [bookReturns, bookCalls, ih]

@[simp] theorem published_append (a b : List Event) :
    published (a ++ b) = published a ++ published b := by
  induction a with
  | nil => rfl
  | cons ev t ih => cases ev <;> simp [published, ih]

@[simp] theorem decoded_append (a b : List Event) :
    decoded (a ++ b) = decoded a ++ decoded b := by
  induction a with
  | nil => rfl
  | cons ev t ih => cases ev <;> simp [decoded, ih]

@[simp] theorem storeCalls_append (a b : List Event) :
    storeCalls (a ++ b) = storeCalls a ++ storeCalls b := by
  induction a with
  | nil => rfl
  | cons ev t ih => cases ev <;> simp [storeCalls, ih]

/-! ## The recovery loop: framing and composition -/

/-- The effects of publishing do not depend on the trace so far. -/
theorem publishResponse_frame {σ : Type} (W : Env σ) (res : Option EngineResponse)
    (s : St σ) :
    publishResponse W res s
      = ((publishResponse W res ⟨s.ext, []⟩).1,
          ⟨(publishResponse W res ⟨s.ext, []⟩).2.ext,
            s.trace ++ (publishResponse W res ⟨s.ext, []⟩).2.trace⟩) := by
  unfold publishResponse
  rcases h : W.publishEngineResponse res s.ext with ⟨_ | err, x⟩ <;> simp [St.emit]

/-- The effects of one loop iteration do not depend on the trace so far. -/
theorem syncOrder_frame {σ : Type} (W : Env σ) (ob : OrderBook) (o : Order) (s : St σ) :
    syncOrder W ob o s
      = ((syncOrder W ob o ⟨s.ext, []⟩).1,
          ⟨(syncOrder W ob o ⟨s.ext, []⟩).2.ext,
            s.trace ++ (syncOrder W ob o ⟨s.ext, []⟩).2.trace⟩) := by
  unfold syncOrder
  split_ifs
  · rcases h : W.sellOrder ob o s.ext with ⟨⟨res, _ | err⟩, x⟩
    · simp only [h, publishResponse, St.emit]
      rcases hp : W.publishEngineResponse res x with ⟨_ | err, y⟩ <;> simp
    · simp [St.emit]
  · rcases h : W.buyOrder ob o s.ext with ⟨⟨res, _ | err⟩, x⟩
    · simp only [h, publishResponse, St.emit]
      rcases hp : W.publishEngineResponse res x with ⟨_ | err, y⟩ <;> simp
    · simp [St.emit]
  · rw [publishResponse_frame W _ s]

/-- The effects of the loop do not depend on the trace so far. -/
theorem syncLoop_frame {σ : Type} (W : Env σ) (ob : OrderBook) (os : List Order) :
    ∀ s : St σ, syncLoop W ob os s
      = ((syncLoop W ob os ⟨s.ext, []⟩).1,
          ⟨(syncLoop W ob os ⟨s.ext, []⟩).2.ext,
            s.trace ++ (syncLoop W ob os ⟨s.ext, []⟩).2.trace⟩) := by
  induction os with
  | nil => intro s; simp [syncLoop]
  | cons o rest ih =>
    intro s
    simp only [syncLoop]
    rw [syncOrder_frame W ob o s]
    rcases h : syncOrder W ob o ⟨s.ext, []⟩ with ⟨_ | err, s1⟩
    · simp only
      rw [ih ⟨s1.ext, s.trace ++ s1.trace⟩, ih s1]
      simp
    · simp

/-- The loop over a concatenation: the loop over the first part, and unless
that ended with an error, the loop over the second part. -/
theorem syncLoop_append {σ : Type} (W : Env σ) (ob : OrderBook) (pre rest : List Order) :
    ∀ s : St σ, syncLoop W ob (pre ++ rest) s
      = match syncLoop W ob pre s with
        | (some err, s1) => (some err, s1)
        | (none, s1) => syncLoop W ob rest s1 := by
  induction pre with
  | nil => intro s; simp [syncLoop]
  | cons o pre ih =>
    intro s
    simp only [List.cons_append, syncLoop]
    rcases h : syncOrder W ob o s with ⟨_ | err, s1⟩
    · exact ih s1
    · simp

/-! ## The recovery loop: what a run leaves in the trace -/

/-- An iteration that lets the loop go on: every call it made succeeded, it
published exactly one response, it called the book exactly when the side is
SELL or BUY, and then the published response is the one the book returned;
for any other side the published response is the zero-valued one. -/
theorem syncOrder_ok {σ : Type} (W : Env σ) (ob : OrderBook) (o : Order) (x : σ)
    (s1 : St σ) (h : syncOrder W ob o ⟨x, []⟩ = (none, s1)) :
    (∀ ev ∈ s1.trace, ev.callError = none) ∧
      (published s1.trace).length = 1 ∧
      bookCalls s1.trace
        = ([o].filter fun o => decide (o.Side = "SELL" ∨ o.Side = "BUY")).map
            (fun o => (if o.Side = "SELL" then BookOp.sellOrder else BookOp.buyOrder, ob,
              Payload.order o)) ∧
      ((o.Side = "SELL" ∨ o.Side = "BUY") →
        published s1.trace = (bookReturns s1.trace).map (·.2)) ∧
      (¬ (o.Side = "SELL" ∨ o.Side = "BUY") →
        published s1.trace = [some EngineResponse.zero]) := by
  unfold syncOrder at h
  split_ifs at h with hs hb
  · rcases hc : W.sellOrder ob o x with ⟨⟨res, _ | err⟩, y⟩
    · simp only [hc, publishResponse, St.emit] at h
      rcases hp : W.publishEngineResponse res y with ⟨_ | err, z⟩
      · simp only [hp, Prod.mk.injEq, true_and] at h
        subst h
        simp [hs, bookCalls, bookReturns, published, Event.callError]
      · simp [hp] at h
    · simp [hc] at h
  · rcases hc : W.buyOrder ob o x with ⟨⟨res, _ | err⟩, y⟩
    · simp only [hc, publishResponse, St.emit] at h
      rcases hp : W.publishEngineResponse res y with ⟨_ | err, z⟩
      · simp only [hp, Prod.mk.injEq, true_and] at h
        subst h
        simp [hs, hb, bookCalls, bookReturns, published, Event.callError]
      · simp [hp] at h
    · simp [hc] at h
  · simp only [publishResponse, St.emit] at h
    rcases hp : W.publishEngineResponse (some EngineResponse.zero) x with ⟨_ | err, z⟩
    · simp only [hp, Prod.mk.injEq, true_and] at h
      subst h
      simp [hs, hb, bookCalls, bookReturns, published, Event.callError]
    · simp [hp] at h

/-- An iteration that ends the loop with an error: that error is the one a
call of the iteration came back with. -/
theorem syncOrder_err {σ : Type} (W : Env σ) (ob : OrderBook) (o : Order) (x : σ)
    (err : GoError) (s1 : St σ) (h : syncOrder W ob o ⟨x, []⟩ = (some err, s1)) :
    ∃ ev ∈ s1.trace, ev.callError = some err := by
  unfold syncOrder at h
  split_ifs at h with hs hb
  · rcases hc : W.sellOrder ob o x with ⟨⟨res, _ | err2⟩, y⟩
    · simp only [hc, publishResponse, St.emit] at h
      rcases hp : W.publishEngineResponse res y with ⟨_ | err3, z⟩
      · simp [hp] at h
      · simp only [hp, Prod.mk.injEq, Option.some.injEq] at h
        obtain ⟨rfl, rfl⟩ := h
        exact ⟨.publish res (some err3), by simp, rfl⟩
    · simp only [hc, St.emit, Prod.mk.injEq, Option.some.injEq] at h
      obtain ⟨rfl, rfl⟩ := h
      exact ⟨.book .sellOrder ob (.order o) res (some err2), by simp, rfl⟩
  · rcases hc : W.buyOrder ob o x with ⟨⟨res, _ | err2⟩, y⟩
    · simp only [hc, publishResponse, St.emit] at h
      rcases hp : W.publishEngineResponse res y with ⟨_ | err3, z⟩
      · simp [hp] at h
      · simp only [hp, Prod.mk.injEq, Option.some.injEq] at h
        obtain ⟨rfl, rfl⟩ := h
        exact ⟨.publish res (some err3), by simp, rfl⟩
    · simp only [hc, St.emit, Prod.mk.injEq, Option.some.injEq] at h
      obtain ⟨rfl, rfl⟩ := h
      exact ⟨.book .buyOrder ob (.order o) res (some err2), by simp, rfl⟩
  · simp only [publishResponse, St.emit] at h
    rcases hp : W.publishEngineResponse (some EngineResponse.zero) x with ⟨_ | err3, z⟩
    · simp [hp] at h
    · simp only [hp, Prod.mk.injEq, Option.some.injEq] at h
      obtain ⟨rfl, rfl⟩ := h
      exact ⟨.publish (some EngineResponse.zero) (some err3), by simp, rfl⟩

/-- A loop that completes: every call succeeded, one response was published
per order, the book was called once for each SELL or BUY order, in order, and
when every order is a SELL or a BUY the published responses are the book's. -/
theorem syncLoop_ok {σ : Type} (W : Env σ) (ob : OrderBook) (os : List Order) :
    ∀ (x : σ) (s1 : St σ), syncLoop W ob os ⟨x, []⟩ = (none, s1) →
      (∀ ev ∈ s1.trace, ev.callError = none) ∧
        (published s1.trace).length = os.length ∧
        bookCalls s1.trace
          = (os.filter fun o => decide (o.Side = "SELL" ∨ o.Side = "BUY")).map
              (fun o => (if o.Side = "SELL" then BookOp.sellOrder else BookOp.buyOrder, ob,
                Payload.order o)) ∧
        ((∀ o ∈ os, o.Side = "SELL" ∨ o.Side = "BUY") →
          published s1.trace = (bookReturns s1.trace).map (·.2)) := by
  induction os with
  | nil =>
    intro x s1 h
    simp only [syncLoop, Prod.mk.injEq, true_and] at h
    subst h
    simp [published, bookCalls, bookReturns]
  | cons o rest ih =>
    intro x s1 h
    simp only [syncLoop] at h
    rcases ho : syncOrder W ob o ⟨x, []⟩ with ⟨_ | err, s2⟩
    · simp only [ho] at h
      rw [syncLoop_frame] at h
      rcases hr : syncLoop W ob rest ⟨s2.ext, []⟩ with ⟨r, s3⟩
      simp only [hr, Prod.mk.injEq] at h
      obtain ⟨rfl, rfl⟩ := h
      obtain ⟨a1, a2, a3, a4⟩ := syncOrder_ok W ob o x s2 ho
      obtain ⟨b1, b2, b3, b4⟩ := ih s2.ext s3 hr
      refine ⟨?_, ?_, ?_, ?_⟩
      · intro ev hev
        rcases List.mem_append.1 hev with hev | hev
        · exact a1 ev hev
        · exact b1 ev hev
      · simp [a2, b2]; omega
      · simp only [bookCalls_append, a3, b3, List.filter_cons, List.filter_nil]
        split_ifs <;> simp
      · intro hall
        have h1 := a4.1 (hall o (List.mem_cons_self _ _))
        have h2 := b4 (fun o2 ho2 => hall o2 (List.mem_cons_of_mem _ ho2))
        simp [h1, h2]
    · simp [ho] at h

/-- A loop that ends with an error: that error is the one a call came back
with. -/
theorem syncLoop_err {σ : Type} (W : Env σ) (ob : OrderBook) (os : List Order) :
    ∀ (x : σ) (err : GoError) (s1 : St σ), syncLoop W ob os ⟨x, []⟩ = (some err, s1) →
      ∃ ev ∈ s1.trace, ev.callError = some err := by
  induction os with
  | nil => intro x err s1 h; simp [syncLoop] at h
  | cons o rest ih =>
    intro x err s1 h
    simp only [syncLoop] at h
    rcases ho : syncOrder W ob o ⟨x, []⟩ with ⟨_ | err2, s2⟩
    · simp only [ho] at h
      rw [syncLoop_frame] at h
      rcases hr : syncLoop W ob rest ⟨s2.ext, []⟩ with ⟨r, s3⟩
      simp only [hr, Prod.mk.injEq] at h
      obtain ⟨rfl, rfl⟩ := h
      obtain ⟨ev, hev, he⟩ := ih s2.ext err s3 hr
      exact ⟨ev, List.mem_append_right _ hev, he⟩
    · simp only [ho, Prod.mk.injEq, Option.some.injEq] at h
      obtain ⟨rfl, rfl⟩ := h
      exact syncOrder_err W ob o x err2 s2 ho

/-! ## The dispatcher: routing -/

/-- C1. For a message of one of the four order types whose payload decodes and
whose pair code has a registered book, `HandleOrders` invokes exactly one book
operation, on that book, with the decoded payload (`newOrder`, `cancelOrder`,
`invalidateMakerOrders`, `invalidateTakerOrders` respectively); the
collaborators are left in the state that operation produced, and `HandleOrders`
returns nil exactly when the operation returned nil. -/
theorem HandleOrders_invokes_one_book_operation {σ : Type} (W : Env σ) (e : Engine)
    (data : Bytes) (s : St σ) (code : String) (ob : OrderBook)
    (hbook : e.book code = some ob) :
    (∀ o, W.unmarshalOrder data = .ok o → W.orderPairCode o = .ok code →
      bookCalls (HandleOrders W e ⟨"NEW_ORDER", data⟩ s).2.trace
          = bookCalls s.trace ++ [(BookOp.newOrder, ob, Payload.order o)] ∧
        (HandleOrders W e ⟨"NEW_ORDER", data⟩ s).2.ext = (W.newOrder ob o s.ext).2 ∧
        ((HandleOrders W e ⟨"NEW_ORDER", data⟩ s).1 = none ↔
          (W.newOrder ob o s.ext).1 = none)) ∧
    (∀ o, W.unmarshalOrder data = .ok o → W.orderPairCode o = .ok code →
      bookCalls (HandleOrders W e ⟨"CANCEL_ORDER", data⟩ s).2.trace
          = bookCalls s.trace ++ [(BookOp.cancelOrder, ob, Payload.order o)] ∧
        (HandleOrders W e ⟨"CANCEL_ORDER", data⟩ s).2.ext = (W.cancelOrder ob o s.ext).2 ∧
        ((HandleOrders W e ⟨"CANCEL_ORDER", data⟩ s).1 = none ↔
          (W.cancelOrder ob o s.ext).1 = none)) ∧
    (∀ m, W.unmarshalMatches data = .ok m → W.matchesPairCode m = .ok code →
      bookCalls (HandleOrders W e ⟨"INVALIDATE_MAKER_ORDERS", data⟩ s).2.trace
          = bookCalls s.trace ++ [(BookOp.invalidateMakerOrders, ob, Payload.matches m)] ∧
        (HandleOrders W e ⟨"INVALIDATE_MAKER_ORDERS", data⟩ s).2.ext
          = (W.invalidateMakerOrders ob m s.ext).2 ∧
        ((HandleOrders W e ⟨"INVALIDATE_MAKER_ORDERS", data⟩ s).1 = none ↔
          (W.invalidateMakerOrders ob m s.ext).1 = none)) ∧
    (∀ m, W.unmarshalMatches data = .ok m → W.matchesPairCode m = .ok code →
      bookCalls (HandleOrders W e ⟨"INVALIDATE_TAKER_ORDERS", data⟩ s).2.trace
          = bookCalls s.trace ++ [(BookOp.invalidateTakerOrders, ob, Payload.matches m)] ∧
        (HandleOrders W e ⟨"INVALIDATE_TAKER_ORDERS", data⟩ s).2.ext
          = (W.invalidateTakerOrders ob m s.ext).2 ∧
        ((HandleOrders W e ⟨"INVALIDATE_TAKER_ORDERS", data⟩ s).1 = none ↔
          (W.invalidateTakerOrders ob m s.ext).1 = none)) := by
  refine ⟨?_, ?_, ?_, ?_⟩
  · intro o h1 h2
    simp only [HandleOrders, handleNewOrder, h1, h2, hbook]
    rcases h : W.newOrder ob o (s.emit (.unmarshal data)).ext with ⟨_ | err, x⟩ <;>
      simp_all [afterHandler, St.emit, bookCalls]
  · intro o h1 h2
    simp only [HandleOrders, handleCancelOrder, h1, h2, hbook]
    rcases h : W.cancelOrder ob o (s.emit (.unmarshal data)).ext with ⟨_ | err, x⟩ <;>
      simp_all [afterHandler, St.emit, bookCalls]
  · intro m h1 h2
    simp only [HandleOrders, handleInvalidateMakerOrders, h1, h2, hbook]
    rcases h : W.invalidateMakerOrders ob m (s.emit (.unmarshal data)).ext with ⟨_ | err, x⟩ <;>
      simp_all [afterHandler, St.emit, bookCalls]
  · intro m h1 h2
    simp only [HandleOrders, handleInvalidateTakerOrders, h1, h2, hbook]
    rcases h : W.invalidateTakerOrders ob m (s.emit (.unmarshal data)).ext with ⟨_ | err, x⟩ <;>
      simp_all [afterHandler, St.emit, bookCalls]

/-- C1 witness: a SELL order of the registered pair `0xB/0xQ` delivered as
`NEW_ORDER` to the sample engine. -/
theorem HandleOrders_invokes_one_book_operation_witness :
    sampleEngine.book "0xB/0xQ" = some sampleBook ∧
      bookCalls (HandleOrders (sampleEnv []) sampleEngine ⟨"NEW_ORDER", [0, 5, 1]⟩ ⟨0, []⟩).2.trace
          = bookCalls [] ++ [(BookOp.newOrder, sampleBook, Payload.order (sampleOrder "SELL" 5))] ∧
        (HandleOrders (sampleEnv []) sampleEngine ⟨"NEW_ORDER", [0, 5, 1]⟩ ⟨0, []⟩).2.ext
          = ((sampleEnv []).newOrder sampleBook (sampleOrder "SELL" 5) 0).2 ∧
        ((HandleOrders (sampleEnv []) sampleEngine ⟨"NEW_ORDER", [0, 5, 1]⟩ ⟨0, []⟩).1 = none ↔
          ((sampleEnv []).newOrder sampleBook (sampleOrder "SELL" 5) 0).1 = none) :=
  ⟨by decide,
    (HandleOrders_invokes_one_book_operation (sampleEnv []) sampleEngine [0, 5, 1] ⟨0, []⟩
      "0xB/0xQ" sampleBook (by decide)).1 (sampleOrder "SELL" 5) rfl rfl⟩

/-- C2. Evaluation at the failing input: an `INVALIDATE_TAKER_ORDERS` message
whose payload decodes to the pair code `0xC/0xQ`, for which the sample engine
has no book.  `HandleOrders` invokes no book operation and returns nil, whereas
the same payload under each of the other three message types returns the
non-nil error "Orderbook error". -/
theorem HandleOrders_unknown_pair_taker_returns_nil :
    (sampleEnv []).unmarshalMatches [0, 5, 2]
        = .ok ⟨some ⟨"0xA", "0xC", "0xQ", "SELL", "LIMIT", "NEW", 100, 5, 0⟩, []⟩ ∧
      (sampleEnv []).matchesPairCode
          ⟨some ⟨"0xA", "0xC", "0xQ", "SELL", "LIMIT", "NEW", 100, 5, 0⟩, []⟩ = .ok "0xC/0xQ" ∧
      sampleEngine.book "0xC/0xQ" = none ∧
      (HandleOrders (sampleEnv []) sampleEngine ⟨"INVALIDATE_TAKER_ORDERS", [0, 5, 2]⟩ ⟨0, []⟩).1
        = none ∧
      bookCalls
          (HandleOrders (sampleEnv []) sampleEngine ⟨"INVALIDATE_TAKER_ORDERS", [0, 5, 2]⟩
            ⟨0, []⟩).2.trace = [] ∧
      (HandleOrders (sampleEnv []) sampleEngine ⟨"INVALIDATE_MAKER_ORDERS", [0, 5, 2]⟩ ⟨0, []⟩).1
        = some (errorsNew "Orderbook error") ∧
      (HandleOrders (sampleEnv []) sampleEngine ⟨"NEW_ORDER", [0, 5, 2]⟩ ⟨0, []⟩).1
        = some (errorsNew "Orderbook error") ∧
      (HandleOrders (sampleEnv []) sampleEngine ⟨"CANCEL_ORDER", [0, 5, 2]⟩ ⟨0, []⟩).1
        = some (errorsNew "Orderbook error") :=
  ⟨rfl, rfl, by decide, by decide, by decide, by decide, by decide, by decide⟩

/-- C3. For each of the four message types, when the payload fails to decode
(`json.Unmarshal` fails, or `PairCode` fails on the decoded value),
`HandleOrders` returns that error, invokes no book operation and leaves the
collaborators untouched. -/
theorem HandleOrders_decode_error_returned {σ : Type} (W : Env σ) (e : Engine)
    (msg : Message) (s : St σ) (err : GoError)
    (hdec :
      ((msg.MsgType = "NEW_ORDER" ∨ msg.MsgType = "CANCEL_ORDER") ∧
        (W.unmarshalOrder msg.Data = .error err ∨
          ∃ o, W.unmarshalOrder msg.Data = .ok o ∧ W.orderPairCode o = .error err)) ∨
      ((msg.MsgType = "INVALIDATE_MAKER_ORDERS" ∨ msg.MsgType = "INVALIDATE_TAKER_ORDERS") ∧
        (W.unmarshalMatches msg.Data = .error err ∨
          ∃ m, W.unmarshalMatches msg.Data = .ok m ∧ W.matchesPairCode m = .error err))) :
    (HandleOrders W e msg s).1 = some err ∧
      bookCalls (HandleOrders W e msg s).2.trace = bookCalls s.trace ∧
      (HandleOrders W e msg s).2.ext = s.ext := by
  rcases hdec with ⟨ht | ht, h | ⟨o, h, h2⟩⟩ | ⟨ht | ht, h | ⟨m, h, h2⟩⟩ <;>
    simp [HandleOrders, handleNewOrder, handleCancelOrder, handleInvalidateMakerOrders,
      handleInvalidateTakerOrders, ht, h, afterHandler, St.emit, bookCalls] <;>
    simp [h2, bookCalls]

/-- C3 witness: a truncated payload delivered as `CANCEL_ORDER`. -/
theorem HandleOrders_decode_error_returned_witness :
    (HandleOrders (sampleEnv []) sampleEngine ⟨"CANCEL_ORDER", [0, 5]⟩ ⟨0, []⟩).1
        = some ⟨"unexpected end of JSON input"⟩ ∧
      bookCalls (HandleOrders (sampleEnv []) sampleEngine ⟨"CANCEL_ORDER", [0, 5]⟩ ⟨0, []⟩).2.trace
        = bookCalls [] ∧
      (HandleOrders (sampleEnv []) sampleEngine ⟨"CANCEL_ORDER", [0, 5]⟩ ⟨0, []⟩).2.ext = 0 :=
  HandleOrders_decode_error_returned (sampleEnv []) sampleEngine ⟨"CANCEL_ORDER", [0, 5]⟩ ⟨0, []⟩
    ⟨"unexpected end of JSON input"⟩ (Or.inl ⟨Or.inr rfl, Or.inl rfl⟩)

/-- C4 counterexample: a decodable `NEW_ORDER` for the registered pair
`0xB/0xQ` whose amount the sample book rejects.  The book operation fails and
`HandleOrders` does not return nil: it returns the book's error. -/
theorem HandleOrders_book_failure_counterexample :
    (sampleEnv []).unmarshalOrder [0, 0, 1] = .ok (sampleOrder "SELL" 0) ∧
      (sampleEnv []).orderPairCode (sampleOrder "SELL" 0) = .ok "0xB/0xQ" ∧
      sampleEngine.book "0xB/0xQ" = some sampleBook ∧
      ((sampleEnv []).newOrder sampleBook (sampleOrder "SELL" 0) 0).1
        = some ⟨"invalid amount"⟩ ∧
      (HandleOrders (sampleEnv []) sampleEngine ⟨"NEW_ORDER", [0, 0, 1]⟩ ⟨0, []⟩).1 ≠ none :=
  ⟨rfl, rfl, by decide, by decide, by decide⟩

/-- C4, amended. For each of the four message types, when the payload decodes,
the book exists and the book operation fails, `HandleOrders` returns the book
operation's error to the bus consumer. -/
theorem HandleOrders_book_failure_propagates {σ : Type} (W : Env σ) (e : Engine)
    (data : Bytes) (s : St σ) (code : String) (ob : OrderBook) (err : GoError)
    (hbook : e.book code = some ob) :
    (∀ o, W.unmarshalOrder data = .ok o → W.orderPairCode o = .ok code →
      (W.newOrder ob o s.ext).1 = some err →
      (HandleOrders W e ⟨"NEW_ORDER", data⟩ s).1 = some err) ∧
    (∀ o, W.unmarshalOrder data = .ok o → W.orderPairCode o = .ok code →
      (W.cancelOrder ob o s.ext).1 = some err →
      (HandleOrders W e ⟨"CANCEL_ORDER", data⟩ s).1 = some err) ∧
    (∀ m, W.unmarshalMatches data = .ok m → W.matchesPairCode m = .ok code →
      (W.invalidateMakerOrders ob m s.ext).1 = some err →
      (HandleOrders W e ⟨"INVALIDATE_MAKER_ORDERS", data⟩ s).1 = some err) ∧
    (∀ m, W.unmarshalMatches data = .ok m → W.matchesPairCode m = .ok code →
      (W.invalidateTakerOrders ob m s.ext).1 = some err →
      (HandleOrders W e ⟨"INVALIDATE_TAKER_ORDERS", data⟩ s).1 = some err) := by
  refine ⟨?_, ?_, ?_, ?_⟩
  · intro o h1 h2 h3
    simp only [HandleOrders, handleNewOrder, h1, h2, hbook]
    rcases h : W.newOrder ob o (s.emit (.unmarshal data)).ext with ⟨_ | err2, x⟩ <;>
      simp_all [afterHandler, St.emit]
  · intro o h1 h2 h3
    simp only [HandleOrders, handleCancelOrder, h1, h2, hbook]
    rcases h : W.cancelOrder ob o (s.emit (.unmarshal data)).ext with ⟨_ | err2, x⟩ <;>
      simp_all [afterHandler, St.emit]
  · intro m h1 h2 h3
    simp only [HandleOrders, handleInvalidateMakerOrders, h1, h2, hbook]
    rcases h : W.invalidateMakerOrders ob m (s.emit (.unmarshal data)).ext with ⟨_ | err2, x⟩ <;>
      simp_all [afterHandler, St.emit]
  · intro m h1 h2 h3
    simp only [HandleOrders, handleInvalidateTakerOrders, h1, h2, hbook]
    rcases h : W.invalidateTakerOrders ob m (s.emit (.unmarshal data)).ext with ⟨_ | err2, x⟩ <;>
      simp_all [afterHandler, St.emit]

/-- C4 witness: a `CANCEL_ORDER` the sample book rejects. -/
theorem HandleOrders_book_failure_propagates_witness :
    sampleEngine.book "0xB/0xQ" = some sampleBook ∧
      ((sampleEnv []).cancelOrder sampleBook (sampleOrder "BUY" 0) 0).1
        = some ⟨"invalid amount"⟩ ∧
      (HandleOrders (sampleEnv []) sampleEngine ⟨"CANCEL_ORDER", [1, 0, 1]⟩ ⟨0, []⟩).1
        = some ⟨"invalid amount"⟩ :=
  ⟨by decide, by decide,
    (HandleOrders_book_failure_propagates (sampleEnv []) sampleEngine [1, 0, 1] ⟨0, []⟩
      "0xB/0xQ" sampleBook ⟨"invalid amount"⟩ (by decide)).2.1 (sampleOrder "BUY" 0) rfl rfl
      (by decide)⟩

/-- C5. A message whose type is none of the four order types is dropped,
whatever its payload: `HandleOrders` returns nil, the only effect is the log
line, so nothing is decoded, no book operation is invoked, nothing is published
and the collaborators' state is unchanged. -/
theorem HandleOrders_unknown_type_dropped {σ : Type} (W : Env σ) (e : Engine)
    (msg : Message) (s : St σ)
    (h1 : msg.MsgType ≠ "NEW_ORDER") (h2 : msg.MsgType ≠ "CANCEL_ORDER")
    (h3 : msg.MsgType ≠ "INVALIDATE_MAKER_ORDERS")
    (h4 : msg.MsgType ≠ "INVALIDATE_TAKER_ORDERS") :
    (HandleOrders W e msg s).1 = none ∧
      (HandleOrders W e msg s).2.trace = s.trace ++ [Event.logUnknown msg] ∧
      decoded (HandleOrders W e msg s).2.trace = decoded s.trace ∧
      bookCalls (HandleOrders W e msg s).2.trace = bookCalls s.trace ∧
      published (HandleOrders W e msg s).2.trace = published s.trace ∧
      storeCalls (HandleOrders W e msg s).2.trace = storeCalls s.trace ∧
      (HandleOrders W e msg s).2.ext = s.ext := by
  simp [HandleOrders, h1, h2, h3, h4, St.emit, decoded, bookCalls, published, storeCalls]

/-- C5 witness: a `PING` message carrying a payload that would decode as an
order. -/
theorem HandleOrders_unknown_type_dropped_witness :
    (HandleOrders (sampleEnv []) sampleEngine ⟨"PING", [0, 5, 1]⟩ ⟨0, []⟩).1 = none ∧
      (HandleOrders (sampleEnv []) sampleEngine ⟨"PING", [0, 5, 1]⟩ ⟨0, []⟩).2.trace
        = [] ++ [Event.logUnknown ⟨"PING", [0, 5, 1]⟩] ∧
      decoded (HandleOrders (sampleEnv []) sampleEngine ⟨"PING", [0, 5, 1]⟩ ⟨0, []⟩).2.trace
        = decoded [] ∧
      bookCalls (HandleOrders (sampleEnv []) sampleEngine ⟨"PING", [0, 5, 1]⟩ ⟨0, []⟩).2.trace
        = bookCalls [] ∧
      published (HandleOrders (sampleEnv []) sampleEngine ⟨"PING", [0, 5, 1]⟩ ⟨0, []⟩).2.trace
        = published [] ∧
      storeCalls (HandleOrders (sampleEnv []) sampleEngine ⟨"PING", [0, 5, 1]⟩ ⟨0, []⟩).2.trace
        = storeCalls [] ∧
      (HandleOrders (sampleEnv []) sampleEngine ⟨"PING", [0, 5, 1]⟩ ⟨0, []⟩).2.ext = 0 :=
  HandleOrders_unknown_type_dropped (sampleEnv []) sampleEngine ⟨"PING", [0, 5, 1]⟩ ⟨0, []⟩
    (by decide) (by decide) (by decide) (by decide)

/-! ## The recovery loader -/

/-- When the recovery the specification describes succeeds from the state `x`,
the loop of `SyncOrderBook` completes, leaves the collaborators in the same
final state, publishes exactly the responses the book returned, and its book
calls are the orders paired with those responses. -/
theorem syncLoop_successfulRecovery {σ : Type} (W : Env σ) (ob : OrderBook)
    (os : List Order) :
    ∀ (x : σ) (rs : List (Option EngineResponse)) (xf : σ),
      successfulRecovery W ob os x = some (rs, xf) →
      ∃ s1, syncLoop W ob os ⟨x, []⟩ = (none, s1) ∧ s1.ext = xf ∧
        published s1.trace = rs ∧
        bookReturns s1.trace
          = List.zip
              (os.map (fun o =>
                (if o.Side = "SELL" then BookOp.sellOrder else BookOp.buyOrder, ob,
                  Payload.order o))) rs ∧
        rs.length = os.length ∧
        (∀ ev ∈ s1.trace, ev.callError = none) := by
  induction os with
  | nil =>
    intro x rs xf h
    simp only [successfulRecovery, Option.some.injEq, Prod.mk.injEq] at h
    obtain ⟨rfl, rfl⟩ := h
    exact ⟨⟨x, []⟩, rfl, rfl, rfl, rfl, rfl, by simp⟩
  | cons o rest ih =>
    intro x rs xf h
    simp only [successfulRecovery] at h
    split_ifs at h with hs hb
    · rcases hc : W.sellOrder ob o x with ⟨⟨res, _ | err⟩, y⟩
      · simp only [hc] at h
        rcases hp : W.publishEngineResponse res y with ⟨_ | err, z⟩
        · simp only [hp] at h
          rcases hrest : successfulRecovery W ob rest z with _ | ⟨rs2, w⟩
          · simp [hrest] at h
          · simp only [hrest, Option.some.injEq, Prod.mk.injEq] at h
            obtain ⟨rfl, rfl⟩ := h
            obtain ⟨s2, h1, h2, h3, h4, h5, h6⟩ := ih z rs2 w hrest
            refine ⟨⟨s2.ext,
              [Event.book .sellOrder ob (.order o) res none, Event.publish res none]
                ++ s2.trace⟩, ?_, h2, ?_, ?_, ?_, ?_⟩
            · simp only [syncLoop, syncOrder, hs, if_true, hc, publishResponse, St.emit, hp]
              rw [syncLoop_frame, h1]
              simp
            · simp [published, h3]
            · simp [bookReturns, h4, hs]
            · simp [h5]
            · intro ev hev
              simp only [List.cons_append, List.nil_append, List.mem_cons] at hev
              rcases hev with rfl | rfl | hev
              · rfl
              · rfl
              · exact h6 ev hev
        · simp [hp] at h
      · simp [hc] at h
    · rcases hc : W.buyOrder ob o x with ⟨⟨res, _ | err⟩, y⟩
      · simp only [hc] at h
        rcases hp : W.publishEngineResponse res y with ⟨_ | err, z⟩
        · simp only [hp] at h
          rcases hrest : successfulRecovery W ob rest z with _ | ⟨rs2, w⟩
          · simp [hrest] at h
          · simp only [hrest, Option.some.injEq, Prod.mk.injEq] at h
            obtain ⟨rfl, rfl⟩ := h
            obtain ⟨s2, h1, h2, h3, h4, h5, h6⟩ := ih z rs2 w hrest
            refine ⟨⟨s2.ext,
              [Event.book .buyOrder ob (.order o) res none, Event.publish res none]
                ++ s2.trace⟩, ?_, h2, ?_, ?_, ?_, ?_⟩
            · simp only [syncLoop, syncOrder, if_neg hs, if_pos hb, hc, publishResponse,
                St.emit, hp]
              rw [syncLoop_frame, h1]
              simp
            · simp [published, h3]
            · simp [bookReturns, h4, hs]
            · simp [h5]
            · intro ev hev
              simp only [List.cons_append, List.nil_append, List.mem_cons] at hev
              rcases hev with rfl | rfl | hev
              · rfl
              · rfl
              · exact h6 ev hev
        · simp [hp] at h
      · simp [hc] at h

/-- C6. On a successful run of `SyncOrderBook` (the pair has a book with a
topic, the store returns the pending orders, each a BUY or a SELL, and every
call to the book and to the bus succeeds: placed in the store's order from the
state the store left, the book returns the responses `rs`, each published
without error, ending in the state `xf`), `SyncOrderBook` returns nil; it
publishes exactly `rs`, one response per order, the `i`-th being the response
the book returned for the `i`-th order; its book calls are, in order,
`sellOrder` for a SELL and `buyOrder` for a BUY on that pair's book, each with
the response it returned; it leaves the collaborators in the state `xf`; and no
call it made came back with an error. -/
theorem SyncOrderBook_publishes_book_responses {σ : Type} (W : Env σ) (e : Engine)
    (p : Pair) (x0 : σ) (ob : OrderBook) (orders : List Order) (x1 : σ)
    (rs : List (Option EngineResponse)) (xf : σ)
    (hbook : e.book (W.pairCode p) = some ob) (htopic : ob.topic ≠ "")
    (hstore : W.getNewOrders ob.topic x0 = ((orders, none), x1))
    (hrun : successfulRecovery W ob orders x1 = some (rs, xf)) :
    (SyncOrderBook W e p ⟨x0, []⟩).1 = .returned none ∧
      published (SyncOrderBook W e p ⟨x0, []⟩).2.trace = rs ∧
      rs.length = orders.length ∧
      bookReturns (SyncOrderBook W e p ⟨x0, []⟩).2.trace
        = List.zip
            (orders.map (fun o =>
              (if o.Side = "SELL" then BookOp.sellOrder else BookOp.buyOrder, ob,
                Payload.order o))) rs ∧
      (SyncOrderBook W e p ⟨x0, []⟩).2.ext = xf ∧
      storeCalls (SyncOrderBook W e p ⟨x0, []⟩).2.trace = [ob.topic] ∧
      (∀ ev ∈ (SyncOrderBook W e p ⟨x0, []⟩).2.trace, ev.callError = none) := by
  obtain ⟨s1, h1, h2, h3, h4, h5, h6⟩ := syncLoop_successfulRecovery W ob orders x1 rs xf hrun
  simp only [SyncOrderBook, St.emit, hbook, htopic, hstore, if_false]
  rw [syncLoop_frame, h1]
  refine ⟨rfl, ?_, h5, ?_, h2, ?_, ?_⟩
  · simp [published, h3]
  · simp [bookReturns, h4]
  · have hnone : ∀ (os : List Order) (x : σ) (s : St σ),
        syncLoop W ob os ⟨x, []⟩ = (none, s) → storeCalls s.trace = [] := by
      intro os
      induction os with
      | nil =>
        intro x s h
        simp only [syncLoop, Prod.mk.injEq, true_and] at h
        subst h
        rfl
      | cons o rest ih =>
        intro x s h
        simp only [syncLoop] at h
        rcases ho : syncOrder W ob o ⟨x, []⟩ with ⟨_ | err, s2⟩
        · simp only [ho] at h
          rw [syncLoop_frame] at h
          rcases hr : syncLoop W ob rest ⟨s2.ext, []⟩ with ⟨r, s3⟩
          simp only [hr, Prod.mk.injEq] at h
          obtain ⟨rfl, rfl⟩ := h
          have hs2 : storeCalls s2.trace = [] := by
            unfold syncOrder at ho
            split_ifs at ho
            · rcases hc : W.sellOrder ob o x with ⟨⟨res, _ | err⟩, y⟩
              · simp only [hc, publishResponse, St.emit] at ho
                rcases hp : W.publishEngineResponse res y with ⟨_ | err, z⟩
                · simp only [hp, Prod.mk.injEq, true_and] at ho
                  subst ho
                  simp [storeCalls]
                · simp [hp] at ho
              · simp [hc] at ho
            · rcases hc : W.buyOrder ob o x with ⟨⟨res, _ | err⟩, y⟩
              · simp only [hc, publishResponse, St.emit] at ho
                rcases hp : W.publishEngineResponse res y with ⟨_ | err, z⟩
                · simp only [hp, Prod.mk.injEq, true_and] at ho
                  subst ho
                  simp [storeCalls]
                · simp [hp] at ho
              · simp [hc] at ho
            · simp only [publishResponse, St.emit] at ho
              rcases hp : W.publishEngineResponse (some EngineResponse.zero) x with
                ⟨_ | err, z⟩
              · simp only [hp, Prod.mk.injEq, true_and] at ho
                subst ho
                simp [storeCalls]
              · simp [hp] at ho
          simp [hs2, ih s2.ext s3 hr]
        · simp [ho] at h
    simp [storeCalls, hnone orders x1 s1 h1]
  · intro ev hev
    simp only [List.nil_append, List.cons_append, List.mem_cons, List.mem_append] at hev
    rcases hev with rfl | rfl | hev
    · rfl
    · rfl
    · exact h6 ev hev

/-- C6 witness: a SELL and a BUY order pending for the pair `0xB/0xQ`; the
sample book answers `ORDER_ADDED` to each, and the counter of accepted
operations ends at 4 (two book calls, two publications). -/
theorem SyncOrderBook_publishes_book_responses_witness :
    successfulRecovery (sampleEnv [sampleOrder "SELL" 5, sampleOrder "BUY" 3]) sampleBook
        [sampleOrder "SELL" 5, sampleOrder "BUY" 3] 0
        = some ([some ⟨"ORDER_ADDED", some (sampleOrder "SELL" 5), none⟩,
            some ⟨"ORDER_ADDED", some (sampleOrder "BUY" 3), none⟩], 4) ∧
      (SyncOrderBook (sampleEnv [sampleOrder "SELL" 5, sampleOrder "BUY" 3]) sampleEngine
        ⟨"0xB", "0xQ"⟩ ⟨0, []⟩).1 = .returned none ∧
      published (SyncOrderBook (sampleEnv [sampleOrder "SELL" 5, sampleOrder "BUY" 3])
        sampleEngine ⟨"0xB", "0xQ"⟩ ⟨0, []⟩).2.trace
        = [some ⟨"ORDER_ADDED", some (sampleOrder "SELL" 5), none⟩,
            some ⟨"ORDER_ADDED", some (sampleOrder "BUY" 3), none⟩] ∧
      [some (⟨"ORDER_ADDED", some (sampleOrder "SELL" 5), none⟩ : EngineResponse),
            some ⟨"ORDER_ADDED", some (sampleOrder "BUY" 3), none⟩].length
        = [sampleOrder "SELL" 5, sampleOrder "BUY" 3].length ∧
      bookReturns (SyncOrderBook (sampleEnv [sampleOrder "SELL" 5, sampleOrder "BUY" 3])
        sampleEngine ⟨"0xB", "0xQ"⟩ ⟨0, []⟩).2.trace
        = List.zip
            ([sampleOrder "SELL" 5, sampleOrder "BUY" 3].map (fun o =>
              (if o.Side = "SELL" then BookOp.sellOrder else BookOp.buyOrder, sampleBook,
                Payload.order o)))
            [some ⟨"ORDER_ADDED", some (sampleOrder "SELL" 5), none⟩,
              some ⟨"ORDER_ADDED", some (sampleOrder "BUY" 3), none⟩] ∧
      (SyncOrderBook (sampleEnv [sampleOrder "SELL" 5, sampleOrder "BUY" 3]) sampleEngine
        ⟨"0xB", "0xQ"⟩ ⟨0, []⟩).2.ext = 4 ∧
      storeCalls (SyncOrderBook (sampleEnv [sampleOrder "SELL" 5, sampleOrder "BUY" 3])
        sampleEngine ⟨"0xB", "0xQ"⟩ ⟨0, []⟩).2.trace = [sampleBook.topic] ∧
      (∀ ev ∈ (SyncOrderBook (sampleEnv [sampleOrder "SELL" 5, sampleOrder "BUY" 3])
        sampleEngine ⟨"0xB", "0xQ"⟩ ⟨0, []⟩).2.trace, ev.callError = none) :=
  ⟨by decide,
    SyncOrderBook_publishes_book_responses
      (sampleEnv [sampleOrder "SELL" 5, sampleOrder "BUY" 3])
      sampleEngine ⟨"0xB", "0xQ"⟩ 0 sampleBook [sampleOrder "SELL" 5, sampleOrder "BUY" 3] 0
      [some ⟨"ORDER_ADDED", some (sampleOrder "SELL" 5), none⟩,
        some ⟨"ORDER_ADDED", some (sampleOrder "BUY" 3), none⟩] 4
      (by decide) (by decide) rfl (by decide)⟩

/-- C7. If the first `k-1` pending orders are processed without error and the
book operation for the `k`-th fails, `SyncOrderBook` returns that error; the
book calls are those of the first `k-1` orders followed by the failing call,
so none is made for a later order; and the published responses are exactly the
`k-1` published for the preceding orders. -/
theorem SyncOrderBook_aborts_on_book_error {σ : Type} (W : Env σ) (e : Engine) (p : Pair)
    (x0 : σ) (ob : OrderBook) (pre : List Order) (ok : Order) (post : List Order)
    (x1 : σ) (s2 : St σ) (res : Option EngineResponse) (err : GoError) (x3 : σ)
    (hbook : e.book (W.pairCode p) = some ob) (htopic : ob.topic ≠ "")
    (hstore : W.getNewOrders ob.topic x0 = ((pre ++ ok :: post, none), x1))
    (hpre : syncLoop W ob pre ⟨x1, []⟩ = (none, s2))
    (hfail : (ok.Side = "SELL" ∧ W.sellOrder ob ok s2.ext = ((res, some err), x3)) ∨
      (ok.Side = "BUY" ∧ W.buyOrder ob ok s2.ext = ((res, some err), x3))) :
    (SyncOrderBook W e p ⟨x0, []⟩).1 = .returned (some err) ∧
      bookCalls (SyncOrderBook W e p ⟨x0, []⟩).2.trace
        = (pre.filter fun o => decide (o.Side = "SELL" ∨ o.Side = "BUY")).map
            (fun o => (if o.Side = "SELL" then BookOp.sellOrder else BookOp.buyOrder, ob,
              Payload.order o))
          ++ [(if ok.Side = "SELL" then BookOp.sellOrder else BookOp.buyOrder, ob,
              Payload.order ok)] ∧
      published (SyncOrderBook W e p ⟨x0, []⟩).2.trace = published s2.trace ∧
      (published s2.trace).length = pre.length := by
  obtain ⟨-, b2, b3, -⟩ := syncLoop_ok W ob pre x1 s2 hpre
  have hstep : syncOrder W ob ok ⟨s2.ext, []⟩
      = (some err,
          ⟨x3, [Event.book (if ok.Side = "SELL" then BookOp.sellOrder else BookOp.buyOrder) ob
            (Payload.order ok) res (some err), Event.logError (some err)]⟩) := by
    rcases hfail with ⟨hs, hc⟩ | ⟨hs, hc⟩
    · simp [syncOrder, hs, hc, St.emit]
    · simp [syncOrder, hs, hc, St.emit]
  simp only [SyncOrderBook, St.emit, hbook, htopic, hstore, if_false]
  rw [syncLoop_frame, syncLoop_append, hpre]
  simp only [syncLoop]
  rw [syncOrder_frame, hstep]
  simp [b2, b3, published, bookCalls]

/-- C7 witness: three pending orders, the second of which the sample book
rejects. -/
theorem SyncOrderBook_aborts_on_book_error_witness :
    (SyncOrderBook
        (sampleEnv ([sampleOrder "SELL" 5] ++ sampleOrder "BUY" 0 :: [sampleOrder "SELL" 2]))
        sampleEngine ⟨"0xB", "0xQ"⟩ ⟨0, []⟩).1 = .returned (some ⟨"invalid amount"⟩) ∧
      bookCalls (SyncOrderBook
        (sampleEnv ([sampleOrder "SELL" 5] ++ sampleOrder "BUY" 0 :: [sampleOrder "SELL" 2]))
        sampleEngine ⟨"0xB", "0xQ"⟩ ⟨0, []⟩).2.trace
        = ([sampleOrder "SELL" 5].filter fun o => decide (o.Side = "SELL" ∨ o.Side = "BUY")).map
            (fun o => (if o.Side = "SELL" then BookOp.sellOrder else BookOp.buyOrder,
              sampleBook, Payload.order o))
          ++ [(if (sampleOrder "BUY" 0).Side = "SELL" then BookOp.sellOrder
                else BookOp.buyOrder, sampleBook, Payload.order (sampleOrder "BUY" 0))] ∧
      published (SyncOrderBook
        (sampleEnv ([sampleOrder "SELL" 5] ++ sampleOrder "BUY" 0 :: [sampleOrder "SELL" 2]))
        sampleEngine ⟨"0xB", "0xQ"⟩ ⟨0, []⟩).2.trace
        = published
            [Event.book .sellOrder sampleBook (.order (sampleOrder "SELL" 5))
                (some ⟨"ORDER_ADDED", some (sampleOrder "SELL" 5), none⟩) none,
              Event.publish (some ⟨"ORDER_ADDED", some (sampleOrder "SELL" 5), none⟩) none] ∧
      (published
            [Event.book .sellOrder sampleBook (.order (sampleOrder "SELL" 5))
                (some ⟨"ORDER_ADDED", some (sampleOrder "SELL" 5), none⟩) none,
              Event.publish (some ⟨"ORDER_ADDED", some (sampleOrder "SELL" 5), none⟩)
                none]).length = [sampleOrder "SELL" 5].length :=
  SyncOrderBook_aborts_on_book_error
    (sampleEnv ([sampleOrder "SELL" 5] ++ sampleOrder "BUY" 0 :: [sampleOrder "SELL" 2]))
    sampleEngine ⟨"0xB", "0xQ"⟩ 0 sampleBook [sampleOrder "SELL" 5] (sampleOrder "BUY" 0)
    [sampleOrder "SELL" 2] 0
    ⟨2, [Event.book .sellOrder sampleBook (.order (sampleOrder "SELL" 5))
          (some ⟨"ORDER_ADDED", some (sampleOrder "SELL" 5), none⟩) none,
        Event.publish (some ⟨"ORDER_ADDED", some (sampleOrder "SELL" 5), none⟩) none]⟩
    none ⟨"invalid amount"⟩ 2 (by decide) (by decide) rfl rfl (Or.inr ⟨rfl, rfl⟩)

/-! ## Recovery against the live path -/

/-- A decodable `NEW_ORDER` for a registered pair adds exactly one `newOrder`
call to the trace. -/
theorem HandleOrders_newOrder_calls {σ : Type} (W : Env σ) (e : Engine) (data : Bytes)
    (s : St σ) (o : Order) (code : String) (ob : OrderBook)
    (h1 : W.unmarshalOrder data = .ok o) (h2 : W.orderPairCode o = .ok code)
    (hbook : e.book code = some ob) :
    bookCalls (HandleOrders W e ⟨"NEW_ORDER", data⟩ s).2.trace
      = bookCalls s.trace ++ [(BookOp.newOrder, ob, Payload.order o)] := by
  simp only [HandleOrders, handleNewOrder, h1, h2, hbook]
  rcases h : W.newOrder ob o (s.emit (.unmarshal data)).ext with ⟨_ | err, x⟩ <;>
    simp_all [afterHandler, St.emit, bookCalls]

/-- Delivering decodable `NEW_ORDER` messages of one registered pair calls
`newOrder` on that pair's book once per message, in order. -/
theorem deliver_newOrder_calls {σ : Type} (W : Env σ) (e : Engine) (enc : Order → Bytes)
    (code : String) (ob : OrderBook) (hbook : e.book code = some ob) (orders : List Order) :
    ∀ s : St σ,
      (∀ o ∈ orders, W.unmarshalOrder (enc o) = .ok o ∧ W.orderPairCode o = .ok code) →
      bookCalls (deliver W e (orders.map fun o => ⟨"NEW_ORDER", enc o⟩) s).trace
        = bookCalls s.trace
          ++ orders.map (fun o => (BookOp.newOrder, ob, Payload.order o)) := by
  induction orders with
  | nil => intro s _; simp [deliver]
  | cons o rest ih =>
    intro s hdec
    have ho := hdec o (List.mem_cons_self _ _)
    simp only [List.map_cons, deliver]
    rw [ih _ (fun o2 ho2 => hdec o2 (List.mem_cons_of_mem _ ho2)),
      HandleOrders_newOrder_calls W e (enc o) s o code ob ho.1 ho.2 hbook]
    simp

/-- C8 counterexample: one pending SELL order of the pair `0xB/0xQ`.  Recovery
calls the book's `sellOrder` for it, the live path (the same order delivered as
a `NEW_ORDER` message) calls the book's `newOrder`, so the two sequences of
book operations differ. -/
theorem SyncOrderBook_live_path_counterexample :
    (sampleEnv [sampleOrder "SELL" 5]).unmarshalOrder [0, 5, 1] = .ok (sampleOrder "SELL" 5) ∧
      bookCalls (SyncOrderBook (sampleEnv [sampleOrder "SELL" 5]) sampleEngine ⟨"0xB", "0xQ"⟩
          ⟨0, []⟩).2.trace
        = [(BookOp.sellOrder, sampleBook, Payload.order (sampleOrder "SELL" 5))] ∧
      bookCalls (deliver (sampleEnv [sampleOrder "SELL" 5]) sampleEngine
          [⟨"NEW_ORDER", [0, 5, 1]⟩] ⟨0, []⟩).trace
        = [(BookOp.newOrder, sampleBook, Payload.order (sampleOrder "SELL" 5))] ∧
      bookCalls (SyncOrderBook (sampleEnv [sampleOrder "SELL" 5]) sampleEngine ⟨"0xB", "0xQ"⟩
          ⟨0, []⟩).2.trace
        ≠ bookCalls (deliver (sampleEnv [sampleOrder "SELL" 5]) sampleEngine
          [⟨"NEW_ORDER", [0, 5, 1]⟩] ⟨0, []⟩).trace :=
  ⟨rfl, by decide, by decide, by decide⟩

/-- C8, amended. For every list of pending BUY and SELL orders that recovery
processes without error, `SyncOrderBook` hands the book the same orders, in the
same order and on the same book, as delivering them as `NEW_ORDER` messages to
`HandleOrders` does; the operation differs: recovery calls `sellOrder` or
`buyOrder` by side, the live path calls `newOrder`. -/
theorem SyncOrderBook_same_orders_as_live {σ : Type} (W : Env σ) (e : Engine) (p : Pair)
    (x0 : σ) (ob : OrderBook) (orders : List Order) (x1 : σ) (enc : Order → Bytes) (y0 : σ)
    (hbook : e.book (W.pairCode p) = some ob) (htopic : ob.topic ≠ "")
    (hstore : W.getNewOrders ob.topic x0 = ((orders, none), x1))
    (hside : ∀ o ∈ orders, o.Side = "BUY" ∨ o.Side = "SELL")
    (hdec : ∀ o ∈ orders,
      W.unmarshalOrder (enc o) = .ok o ∧ W.orderPairCode o = .ok (W.pairCode p))
    (hok : (SyncOrderBook W e p ⟨x0, []⟩).1 = .returned none) :
    bookCalls (SyncOrderBook W e p ⟨x0, []⟩).2.trace
        = orders.map (fun o =>
            (if o.Side = "SELL" then BookOp.sellOrder else BookOp.buyOrder, ob,
              Payload.order o)) ∧
      bookCalls (deliver W e (orders.map fun o => ⟨"NEW_ORDER", enc o⟩) ⟨y0, []⟩).trace
        = orders.map (fun o => (BookOp.newOrder, ob, Payload.order o)) := by
  have hfilter : (orders.filter fun o => decide (o.Side = "SELL" ∨ o.Side = "BUY")) = orders :=
    List.filter_eq_self.2 (fun o ho => by simpa using (hside o ho).symm)
  refine ⟨?_, ?_⟩
  · simp only [SyncOrderBook, St.emit, hbook, htopic, hstore, if_false] at hok ⊢
    rw [syncLoop_frame] at hok ⊢
    rcases hr : syncLoop W ob orders ⟨x1, []⟩ with ⟨_ | err, s3⟩
    · obtain ⟨-, -, b3, -⟩ := syncLoop_ok W ob orders x1 s3 hr
      rw [hfilter] at b3
      simp [hr, bookCalls, b3]
    · simp [hr] at hok
  · rw [deliver_newOrder_calls W e enc (W.pairCode p) ob hbook orders ⟨y0, []⟩ hdec]
    simp [bookCalls]

/-- C8 witness: a SELL and a BUY order pending for the pair `0xB/0xQ`, encoded
in the sample wire format. -/
theorem SyncOrderBook_same_orders_as_live_witness :
    bookCalls (SyncOrderBook (sampleEnv [sampleOrder "SELL" 5, sampleOrder "BUY" 3])
          sampleEngine ⟨"0xB", "0xQ"⟩ ⟨0, []⟩).2.trace
        = [sampleOrder "SELL" 5, sampleOrder "BUY" 3].map (fun o =>
            (if o.Side = "SELL" then BookOp.sellOrder else BookOp.buyOrder, sampleBook,
              Payload.order o)) ∧
      bookCalls (deliver (sampleEnv [sampleOrder "SELL" 5, sampleOrder "BUY" 3]) sampleEngine
          ([sampleOrder "SELL" 5, sampleOrder "BUY" 3].map fun o =>
            ⟨"NEW_ORDER", [if o.Side = "SELL" then 0 else 1, Fin.ofNat o.Amount, 1]⟩)
          ⟨7, []⟩).trace
        = [sampleOrder "SELL" 5, sampleOrder "BUY" 3].map (fun o =>
            (BookOp.newOrder, sampleBook, Payload.order o)) :=
  SyncOrderBook_same_orders_as_live (sampleEnv [sampleOrder "SELL" 5, sampleOrder "BUY" 3])
    sampleEngine ⟨"0xB", "0xQ"⟩ 0 sampleBook [sampleOrder "SELL" 5, sampleOrder "BUY" 3] 0
    (fun o => [if o.Side = "SELL" then 0 else 1, Fin.ofNat o.Amount, 1]) 7
    (by decide) (by decide) rfl (by decide)
    (by
      intro o ho
      simp only [List.mem_cons, List.mem_singleton, List.not_mem_nil, or_false] at ho
      rcases ho with rfl | rfl <;> exact ⟨rfl, rfl⟩)
    (by decide)

/-- C9. If the order store fails when `SyncOrderBook` asks it for the pending
orders of the book's topic, `SyncOrderBook` returns the store's error, invokes
no book operation and publishes no engine response. -/
theorem SyncOrderBook_store_error {σ : Type} (W : Env σ) (e : Engine) (p : Pair)
    (s : St σ) (ob : OrderBook) (orders : List Order) (err : GoError) (x1 : σ)
    (hbook : e.book (W.pairCode p) = some ob) (htopic : ob.topic ≠ "")
    (hstore : W.getNewOrders ob.topic s.ext = ((orders, some err), x1)) :
    (SyncOrderBook W e p s).1 = .returned (some err) ∧
      storeCalls (SyncOrderBook W e p s).2.trace = storeCalls s.trace ++ [ob.topic] ∧
      bookCalls (SyncOrderBook W e p s).2.trace = bookCalls s.trace ∧
      published (SyncOrderBook W e p s).2.trace = published s.trace := by
  simp [SyncOrderBook, St.emit, hbook, htopic, hstore, storeCalls, bookCalls, published]

/-- C9 witness: an engine whose book has the topic for which the sample store
is unreachable. -/
theorem SyncOrderBook_store_error_witness :
    (SyncOrderBook (sampleEnv []) ⟨[("0xB/0xQ", ⟨2, "offline"⟩)]⟩ ⟨"0xB", "0xQ"⟩ ⟨0, []⟩).1
        = .returned (some ⟨"store unavailable"⟩) ∧
      storeCalls (SyncOrderBook (sampleEnv []) ⟨[("0xB/0xQ", ⟨2, "offline"⟩)]⟩ ⟨"0xB", "0xQ"⟩
          ⟨0, []⟩).2.trace = storeCalls [] ++ ["offline"] ∧
      bookCalls (SyncOrderBook (sampleEnv []) ⟨[("0xB/0xQ", ⟨2, "offline"⟩)]⟩ ⟨"0xB", "0xQ"⟩
          ⟨0, []⟩).2.trace = bookCalls [] ∧
      published (SyncOrderBook (sampleEnv []) ⟨[("0xB/0xQ", ⟨2, "offline"⟩)]⟩ ⟨"0xB", "0xQ"⟩
          ⟨0, []⟩).2.trace = published [] :=
  SyncOrderBook_store_error (sampleEnv []) ⟨[("0xB/0xQ", ⟨2, "offline"⟩)]⟩ ⟨"0xB", "0xQ"⟩
    ⟨0, []⟩ ⟨2, "offline"⟩ [] ⟨"store unavailable"⟩ 0 (by decide) (by decide) rfl

/-- C10. Evaluation at the failing input: one pending order of the pair
`0xB/0xQ` whose side is `HOLD`.  `SyncOrderBook` invokes no book operation for
it, returns nil, and the one response it publishes is the zero-valued
`types.EngineResponse{}`, whose status is the empty string and which carries no
order. -/
theorem SyncOrderBook_unknown_side_publishes_zero_response :
    (sampleOrder "HOLD" 5).Side ≠ "SELL" ∧ (sampleOrder "HOLD" 5).Side ≠ "BUY" ∧
      (SyncOrderBook (sampleEnv [sampleOrder "HOLD" 5]) sampleEngine ⟨"0xB", "0xQ"⟩
          ⟨0, []⟩).1 = .returned none ∧
      bookCalls (SyncOrderBook (sampleEnv [sampleOrder "HOLD" 5]) sampleEngine ⟨"0xB", "0xQ"⟩
          ⟨0, []⟩).2.trace = [] ∧
      published (SyncOrderBook (sampleEnv [sampleOrder "HOLD" 5]) sampleEngine ⟨"0xB", "0xQ"⟩
          ⟨0, []⟩).2.trace = [some ⟨"", none, none⟩] :=
  ⟨by decide, by decide, by decide, by decide, by decide⟩

/-! ## Engine start-up: the registry -/

/-- The keys after a map assignment: the assigned key, and the other keys
that were there. -/
theorem mapStore_keys (m : List (String × OrderBook)) (k : String) (v : OrderBook) :
    (mapStore m k v).map (·.1) = k :: (m.map (·.1)).filter (fun c => c != k) := by
  simp [mapStore, List.filter_map, Function.comp_def]

/-- A map assignment keeps the keys distinct. -/
theorem mapStore_nodup (m : List (String × OrderBook)) (k : String) (v : OrderBook)
    (h : (m.map (·.1)).Nodup) : ((mapStore m k v).map (·.1)).Nodup := by
  rw [mapStore_keys]
  refine List.nodup_cons.2 ⟨?_, h.filter _⟩
  simp [List.mem_filter]

/-- The keys after a map assignment, as a set. -/
theorem mapStore_mem (m : List (String × OrderBook)) (k : String) (v : OrderBook)
    (c : String) : c ∈ (mapStore m k v).map (·.1) ↔ c = k ∨ c ∈ m.map (·.1) := by
  rw [mapStore_keys]
  by_cases hc : c = k
  · simp [hc]
  · simp [List.mem_filter, hc]

/-- The start-up loop keeps the keys distinct and adds exactly the codes of the
pairs it ranges over. -/
theorem newEngineLoop_keys {σ : Type} (W : Env σ) (NewOrderBook : Nat → Pair → OrderBook)
    (pairs : List Pair) :
    ∀ (n : Nat) (obs : List (String × OrderBook)), (obs.map (·.1)).Nodup →
      ((newEngineLoop W NewOrderBook pairs n obs).map (·.1)).Nodup ∧
        ∀ c, c ∈ (newEngineLoop W NewOrderBook pairs n obs).map (·.1) ↔
          c ∈ obs.map (·.1) ∨ c ∈ pairs.map W.pairCode := by
  induction pairs with
  | nil => intro n obs h; simp [newEngineLoop, h]
  | cons p rest ih =>
    intro n obs h
    obtain ⟨h1, h2⟩ := ih (n + 1) (mapStore obs (W.pairCode p) (NewOrderBook n p))
      (mapStore_nodup obs _ _ h)
    refine ⟨h1, fun c => ?_⟩
    simp only [newEngineLoop]
    rw [h2 c, mapStore_mem]
    simp only [List.map_cons, List.mem_cons]
    tauto

/-- A map read finds a book exactly for the keys of the map. -/
theorem book_isSome_iff (e : Engine) (c : String) :
    (e.book c).isSome ↔ c ∈ e.orderbooks.map (·.1) := by
  simp only [Engine.book, List.lookup_isSome_iff, List.mem_map, beq_iff_eq]
  constructor
  · rintro ⟨kv, hkv, rfl⟩; exact ⟨kv, hkv, rfl⟩
  · rintro ⟨kv, hkv, rfl⟩; exact ⟨kv, hkv, rfl⟩

/-- With distinct keys, a key has one entry only. -/
theorem nodup_keys_unique (m : List (String × OrderBook)) (h : (m.map (·.1)).Nodup)
    (c : String) (a b : OrderBook) (ha : (c, a) ∈ m) (hb : (c, b) ∈ m) : a = b := by
  induction m with
  | nil => simp at ha
  | cons kv t ih =>
    simp only [List.map_cons, List.nodup_cons, List.mem_map, not_exists, not_and] at h
    rcases List.mem_cons.1 ha with ha | ha <;> rcases List.mem_cons.1 hb with hb | hb
    · rw [← hb] at ha; exact (Prod.mk.inj ha).2
    · exact absurd (by rw [← ha]) (h.1 (c, b) hb)
    · exact absurd (by rw [← hb]) (h.1 (c, a) ha)
    · exact ih h.2 ha hb

/-- C11. For every list of pairs `pairDao.GetAll` returns, `NewEngine` builds a
registry whose keys are exactly the `Code()` values of the listed pairs: a map
read finds a book exactly for those codes, each such code has exactly one entry,
a pair whose code is not a listed one has no book, and listed pairs with equal
codes share their entry, so that there are as many entries as distinct codes. -/
theorem NewEngine_registry_keys {σ : Type} (W : Env σ)
    (NewOrderBook : Nat → Pair → OrderBook) (pairs : List Pair) :
    ∃ e, NewEngine W NewOrderBook (pairs, none) = .started e ∧
      (∀ c, (e.book c).isSome ↔ c ∈ pairs.map W.pairCode) ∧
      (∀ c ∈ pairs.map W.pairCode, ∃! ob, (c, ob) ∈ e.orderbooks) ∧
      (∀ q : Pair, W.pairCode q ∉ pairs.map W.pairCode → e.book (W.pairCode q) = none) ∧
      (∀ p ∈ pairs, ∀ q ∈ pairs, W.pairCode p = W.pairCode q →
        e.book (W.pairCode p) = e.book (W.pairCode q)) ∧
      e.orderbooks.length = (pairs.map W.pairCode).dedup.length := by
  obtain ⟨h1, h2⟩ := newEngineLoop_keys W NewOrderBook pairs 0 [] (by simp)
  have hkeys : ∀ c, (Engine.book ⟨newEngineLoop W NewOrderBook pairs 0 []⟩ c).isSome ↔
      c ∈ pairs.map W.pairCode := by
    intro c
    rw [book_isSome_iff, h2 c]
    simp
  refine ⟨⟨newEngineLoop W NewOrderBook pairs 0 []⟩, rfl, hkeys, ?_, ?_, ?_, ?_⟩
  · intro c hc
    have hsome := (hkeys c).2 hc
    obtain ⟨ob, hob⟩ := Option.isSome_iff_exists.1 hsome
    have hmem : (c, ob) ∈ newEngineLoop W NewOrderBook pairs 0 [] := by
      obtain ⟨l1, l2, hl, -⟩ := List.lookup_eq_some_iff.1 hob
      have hl2 : newEngineLoop W NewOrderBook pairs 0 [] = l1 ++ (c, ob) :: l2 := hl
      rw [hl2]
      simp
    exact ⟨ob, hmem, fun ob2 h => nodup_keys_unique _ h1 c ob2 ob h hmem⟩
  · intro q hq
    have := (hkeys (W.pairCode q)).not.2 hq
    simpa using this
  · intro p _ q _ hpq
    rw [hpq]
  · have hperm : ((newEngineLoop W NewOrderBook pairs 0 []).map (·.1)).Perm
        (pairs.map W.pairCode).dedup :=
      (List.perm_ext_iff_of_nodup h1 (List.nodup_dedup _)).2
        (fun c => by rw [h2 c, List.mem_dedup]; simp)
    simpa using hperm.length_eq

/-- C14. Evaluation at the failing input: the pair `0xC/0xQ`, which has no book
in the sample engine.  `SyncOrderBook` reads the nil book's `topic` and faults
instead of returning an error; before that it has neither called the store nor
published.  A `NEW_ORDER` for the same pair, whose handler checks for the nil
book, returns an error. -/
theorem SyncOrderBook_unregistered_pair_faults :
    sampleEngine.book ((sampleEnv []).pairCode ⟨"0xC", "0xQ"⟩) = none ∧
      (SyncOrderBook (sampleEnv []) sampleEngine ⟨"0xC", "0xQ"⟩ ⟨0, []⟩).1 = Outcome.nilDeref ∧
      (∀ err, (SyncOrderBook (sampleEnv []) sampleEngine ⟨"0xC", "0xQ"⟩ ⟨0, []⟩).1
        ≠ Outcome.returned err) ∧
      storeCalls (SyncOrderBook (sampleEnv []) sampleEngine ⟨"0xC", "0xQ"⟩ ⟨0, []⟩).2.trace
        = [] ∧
      published (SyncOrderBook (sampleEnv []) sampleEngine ⟨"0xC", "0xQ"⟩ ⟨0, []⟩).2.trace
        = [] ∧
      (HandleOrders (sampleEnv []) sampleEngine ⟨"NEW_ORDER", [0, 5, 2]⟩ ⟨0, []⟩).1
        = some (errorsNew "Orderbook error") := by
  refine ⟨by decide, by decide, ?_, by decide, by decide, by decide⟩
  intro err h
  have h2 : (SyncOrderBook (sampleEnv []) sampleEngine ⟨"0xC", "0xQ"⟩ ⟨0, []⟩).1
      = Outcome.nilDeref := by decide
  rw [h2] at h
  exact Outcome.noConfusion h

/-! ## The feed topic -/

/-- C15. For every byte slice `b`, the topic `GetFeed` derives is: `32 - len(b)`
zero bytes followed by `b` when `len(b) <= 32`, the first 32 bytes of `b`
otherwise.  No slice expression goes out of range (the derivation yields a
topic), the topic has 32 bytes, and the branch `startIndex < 0` is never
taken. -/
theorem GetFeedTopic_right_aligned (b : Bytes) :
    GetFeedTopic b
        = some ⟨if b.length ≤ 32 then List.replicate (32 - b.length) 0 ++ b else b.take 32,
            false⟩ ∧
      (∀ r, GetFeedTopic b = some r → r.topic.length = 32 ∧ r.clamped = false) := by
  have key : GetFeedTopic b
      = some ⟨if b.length ≤ 32 then List.replicate (32 - b.length) 0 ++ b else b.take 32,
          false⟩ := by
    unfold GetFeedTopic TopicLength goCopy
    by_cases h : b.length ≤ 32
    · have h1 : ¬ ((b.length : Int) > 32) := by omega
      have h2 : ¬ ((32 : Int) - (b.length : Int) < 0) := by omega
      have h3 : ((32 : Int) - (b.length : Int)).toNat = 32 - b.length := by omega
      have h4 : (0 : Int) ≤ 32 - (b.length : Int) ∧ (32 : Int) - (b.length : Int) ≤ 32 := by
        omega
      simp only [h, h1, h2, h3, h4, if_false, if_true, and_self, true_and, le_refl,
        Int.toNat_ofNat, Nat.cast_nonneg, decide_False, List.take_length]
      simp only [List.take_replicate, List.drop_replicate, List.length_replicate]
      have h5 : min (32 - b.length) 32 = 32 - b.length := by omega
      have h6 : 32 - (32 - b.length) = b.length := by omega
      have h7 : b.length - b.length = 0 := by omega
      simp [h5, h6, h7]
    · have h1 : (b.length : Int) > 32 := by omega
      simp only [h, h1, if_false, if_true]
      have h8 : (32 : Int) ≤ (b.length : Int) := by omega
      have h9 : min 32 b.length = 32 := by omega
      simp [h8, h9, List.take_take]
  refine ⟨key, ?_⟩
  intro r hr
  rw [key] at hr
  cases hr
  refine ⟨?_, rfl⟩
  by_cases h : b.length ≤ 32
  · simp [h]
  · simp [h]; omega

/-! ## Association transactions -/

/-- C13. Evaluation at the failing input: the source `0xS` with a signer that
signs the hash.  `buildUnlockAccountTransaction` returns a nil transaction with
a nil error; with a signer that fails it returns a transaction (type
`RemoveSigner`, no params, the computed hash) and again a nil error; and for
every hash function, signer and source the error it returns is nil. -/
theorem buildUnlockAccountTransaction_inverted_check :
    (sampleSignOk (sampleComputeHash ⟨"0xS", "RemoveSigner", [], [], []⟩)).2 = none ∧
      buildUnlockAccountTransaction sampleComputeHash sampleSignOk "0xS" = (none, none) ∧
      (sampleSignFail (sampleComputeHash ⟨"0xS", "RemoveSigner", [], [], []⟩)).2
        = some ⟨"no entropy"⟩ ∧
      buildUnlockAccountTransaction sampleComputeHash sampleSignFail "0xS"
        = (some ⟨"0xS", "RemoveSigner", [],
            sampleComputeHash ⟨"0xS", "RemoveSigner", [], [], []⟩, []⟩, none) ∧
      (∀ (computeHash : AssociationTransaction → Bytes)
          (sign : Bytes → Bytes × Option GoError) (source : String),
        (buildUnlockAccountTransaction computeHash sign source).2 = none) := by
  refine ⟨by decide, by decide, by decide, by decide, ?_⟩
  intro computeHash sign source
  unfold buildUnlockAccountTransaction buildTransaction
  rcases h : sign (computeHash ⟨source, "RemoveSigner", [], [], []⟩) with ⟨sig, _ | err⟩ <;>
    simp [h]

/-! ## Relayer token synchronisation -/

/-- C16. Evaluation at the failing input: the relayer `0xR` has the token `0xA`
stored and its on-chain token set is empty.  `updateTokenRelayer` returns nil,
its only store call is `GetAllByCoinbase`, and `0xA` is still stored; this is so
for every store and every relayer with an empty token set.  With the one
on-chain token `0xB` the same stored token is deleted. -/
theorem updateTokenRelayer_empty_tokens_deletes_nothing :
    (updateTokenRelayer sampleTokenDao ⟨"0xR", [], 1, 1⟩ ⟨[sampleToken "0xA"], []⟩).1 = none ∧
      (updateTokenRelayer sampleTokenDao ⟨"0xR", [], 1, 1⟩ ⟨[sampleToken "0xA"], []⟩).2.calls
        = [DaoCall.getAllByCoinbase "0xR"] ∧
      (updateTokenRelayer sampleTokenDao ⟨"0xR", [], 1, 1⟩ ⟨[sampleToken "0xA"], []⟩).2.ext
        = [sampleToken "0xA"] ∧
      (∀ (σ : Type) (dao : TokenDao σ) (s : DaoSt σ) (addr : String) (mk tk : Nat),
        (updateTokenRelayer dao ⟨addr, [], mk, tk⟩ s).2.calls
          = s.calls ++ [DaoCall.getAllByCoinbase addr]) ∧
      (updateTokenRelayer sampleTokenDao ⟨"0xR", [("0xB", ⟨"B", 18⟩)], 1, 1⟩
          ⟨[sampleToken "0xA"], []⟩).2.calls
        = [DaoCall.getAllByCoinbase "0xR", DaoCall.create ⟨"B", "0xB", "0xR", 18, 1, 1⟩,
            DaoCall.deleteByTokenAndCoinbase "0xA" "0xR"] := by
  refine ⟨by decide, by decide, by decide, ?_, by decide⟩
  intro σ dao s addr mk tk
  unfold updateTokenRelayer
  rcases h : dao.GetAllByCoinbase addr s.ext with ⟨⟨cur, _ | err⟩, x⟩ <;>
    simp [h, updateTokenLoop]

/-! ## The account endpoint -/

/-- C17. Evaluation at the failing inputs.  For the address `xyz`, which is not
a hex address, `handleGetAccountTokenBalance` writes three responses (400
"Invalid Address", 400 "Invalid Token Address", then 200 with the balance) and
calls `GetTokenBalance`.  For a valid address and the token `xyz` it writes no
400 at all and calls `GetTokenBalance`.  For every request, valid or not, the
service is called exactly once. -/
theorem handleGetAccountTokenBalance_does_not_stop :
    sampleIsHexAddress "xyz" = false ∧ sampleIsHexAddress "0xA" = true ∧
      sampleIsHexAddress "0xT" = true ∧
      handleGetAccountTokenBalance sampleIsHexAddress id sampleGetTokenBalance "xyz" "0xT"
        = [EndpointEvent.writeError 400 "Invalid Address",
            EndpointEvent.writeError 400 "Invalid Token Address",
            EndpointEvent.getTokenBalance "xyz" "0xT", EndpointEvent.writeJSON 200 7] ∧
      responses
          (handleGetAccountTokenBalance sampleIsHexAddress id sampleGetTokenBalance "xyz" "0xT")
        = [400, 400, 200] ∧
      handleGetAccountTokenBalance sampleIsHexAddress id sampleGetTokenBalance "0xA" "xyz"
        = [EndpointEvent.getTokenBalance "0xA" "xyz",
            EndpointEvent.logError ⟨"token not found"⟩,
            EndpointEvent.writeError 404 "token not found"] ∧
      (∀ (isHexAddress : String → Bool) (hexToAddress : String → String)
          (getTokenBalance : String → String → Nat × Option GoError) (a t : String),
        balanceCalls (handleGetAccountTokenBalance isHexAddress hexToAddress getTokenBalance a t)
          = [(hexToAddress a, hexToAddress t)]) := by
  refine ⟨by decide, by decide, by decide, by decide, by decide, by decide, ?_⟩
  intro isHexAddress hexToAddress getTokenBalance a t
  unfold handleGetAccountTokenBalance
  rcases h : getTokenBalance (hexToAddress a) (hexToAddress t) with ⟨b, _ | err⟩ <;>
    cases isHexAddress a <;> simp [h, balanceCalls]

/-! ## The running engine: the registry is only read -/

theorem Run.bind_apply {σ α β : Type} (m : Run σ α) (f : α → Run σ β) (h : Heap σ) :
    (m >>= f) h = f (m h).1 (m h).2 := rfl

theorem Run.pure_apply {σ α : Type} (a : α) (h : Heap σ) : (pure a : Run σ α) h = (a, h) := rfl

theorem Run.keeps_pure {σ α : Type} (a : α) : (pure a : Run σ α).KeepsEngine :=
  fun _ => rfl

theorem Run.keeps_bind {σ α β : Type} (m : Run σ α) (f : α → Run σ β)
    (hm : m.KeepsEngine) (hf : ∀ a, (f a).KeepsEngine) : (m >>= f).KeepsEngine := by
  intro h
  rw [Run.bind_apply, hf, hm]

theorem Run.keeps_emit {σ : Type} (ev : Event) : (Run.emit ev : Run σ Unit).KeepsEngine :=
  fun _ => rfl

theorem Run.keeps_readBook {σ : Type} (code : String) :
    (Run.readBook code : Run σ (Option OrderBook)).KeepsEngine :=
  fun _ => rfl

theorem Run.keeps_call {σ α : Type} (f : σ → α × σ) : (Run.call f).KeepsEngine :=
  fun _ => rfl

theorem onHeap_logAndReturn_keeps {σ : Type} (err : Option GoError) :
    (OnHeap.logAndReturn err : Run σ (Option GoError)).KeepsEngine := by
  cases err with
  | none => exact Run.keeps_pure _
  | some err => exact Run.keeps_bind _ _ (Run.keeps_emit _) (fun _ => Run.keeps_pure _)

theorem onHeap_handleNewOrder_keeps {σ : Type} (W : Env σ) (bytes : Bytes) :
    (OnHeap.handleNewOrder W bytes).KeepsEngine := by
  unfold OnHeap.handleNewOrder
  refine Run.keeps_bind _ _ (Run.keeps_emit _) (fun _ => ?_)
  cases W.unmarshalOrder bytes with
  | error err => exact onHeap_logAndReturn_keeps _
  | ok o =>
    dsimp only
    cases W.orderPairCode o with
    | error err => exact onHeap_logAndReturn_keeps _
    | ok code =>
      refine Run.keeps_bind _ _ (Run.keeps_readBook _) (fun ob => ?_)
      cases ob with
      | none => exact Run.keeps_pure _
      | some ob =>
        exact Run.keeps_bind _ _ (Run.keeps_call _)
          (fun err => Run.keeps_bind _ _ (Run.keeps_emit _)
            (fun _ => onHeap_logAndReturn_keeps err))

theorem onHeap_handleNewOrder_eq {σ : Type} (W : Env σ) (bytes : Bytes) (h : Heap σ) :
    OnHeap.handleNewOrder W bytes h
      = ((handleNewOrder W h.engine bytes h.st).1,
          ⟨h.engine, (handleNewOrder W h.engine bytes h.st).2⟩) := by
  simp only [OnHeap.handleNewOrder, handleNewOrder, Run.bind_apply, Run.emit]
  cases W.unmarshalOrder bytes with
  | error err => simp [OnHeap.logAndReturn, Run.bind_apply, Run.pure_apply, Run.emit]
  | ok o =>
    dsimp only
    cases W.orderPairCode o with
    | error err => simp [OnHeap.logAndReturn, Run.bind_apply, Run.pure_apply, Run.emit]
    | ok code =>
      simp only [Run.bind_apply, Run.readBook]
      cases hb : h.engine.book code with
      | none => simp [Run.pure_apply]
      | some ob =>
        rcases hc : W.newOrder ob o h.st.ext with ⟨_ | err, x⟩ <;>
          simp [hc, OnHeap.logAndReturn, Run.bind_apply, Run.pure_apply, Run.emit, Run.call,
            St.emit]

theorem onHeap_handleCancelOrder_keeps {σ : Type} (W : Env σ) (bytes : Bytes) :
    (OnHeap.handleCancelOrder W bytes).KeepsEngine := by
  unfold OnHeap.handleCancelOrder
  refine Run.keeps_bind _ _ (Run.keeps_emit _) (fun _ => ?_)
  cases W.unmarshalOrder bytes with
  | error err => exact onHeap_logAndReturn_keeps _
  | ok o =>
    dsimp only
    cases W.orderPairCode o with
    | error err => exact onHeap_logAndReturn_keeps _
    | ok code =>
      refine Run.keeps_bind _ _ (Run.keeps_readBook _) (fun ob => ?_)
      cases ob with
      | none => exact Run.keeps_pure _
      | some ob =>
        exact Run.keeps_bind _ _ (Run.keeps_call _)
          (fun err => Run.keeps_bind _ _ (Run.keeps_emit _)
            (fun _ => onHeap_logAndReturn_keeps err))

theorem onHeap_handleInvalidateMakerOrders_keeps {σ : Type} (W : Env σ) (bytes : Bytes) :
    (OnHeap.handleInvalidateMakerOrders W bytes).KeepsEngine := by
  unfold OnHeap.handleInvalidateMakerOrders
  refine Run.keeps_bind _ _ (Run.keeps_emit _) (fun _ => ?_)
  cases W.unmarshalMatches bytes with
  | error err => exact onHeap_logAndReturn_keeps _
  | ok m =>
    dsimp only
    cases W.matchesPairCode m with
    | error err => exact onHeap_logAndReturn_keeps _
    | ok code =>
      refine Run.keeps_bind _ _ (Run.keeps_readBook _) (fun ob => ?_)
      cases ob with
      | none => exact Run.keeps_pure _
      | some ob =>
        exact Run.keeps_bind _ _ (Run.keeps_call _)
          (fun err => Run.keeps_bind _ _ (Run.keeps_emit _)
            (fun _ => onHeap_logAndReturn_keeps err))

theorem onHeap_handleInvalidateTakerOrders_keeps {σ : Type} (W : Env σ) (bytes : Bytes) :
    (OnHeap.handleInvalidateTakerOrders W bytes).KeepsEngine := by
  unfold OnHeap.handleInvalidateTakerOrders
  refine Run.keeps_bind _ _ (Run.keeps_emit _) (fun _ => ?_)
  cases W.unmarshalMatches bytes with
  | error err => exact onHeap_logAndReturn_keeps _
  | ok m =>
    dsimp only
    cases W.matchesPairCode m with
    | error err => exact onHeap_logAndReturn_keeps _
    | ok code =>
      refine Run.keeps_bind _ _ (Run.keeps_readBook _) (fun ob => ?_)
      cases ob with
      | none => exact Run.keeps_bind _ _ (Run.keeps_emit _) (fun _ => Run.keeps_pure _)
      | some ob =>
        exact Run.keeps_bind _ _ (Run.keeps_call _)
          (fun err => Run.keeps_bind _ _ (Run.keeps_emit _)
            (fun _ => onHeap_logAndReturn_keeps err))

/-- No statement of `HandleOrders` or of its handlers writes the registry. -/
theorem onHeap_HandleOrders_keeps {σ : Type} (W : Env σ) (msg : Message) :
    (OnHeap.HandleOrders W msg).KeepsEngine := by
  unfold OnHeap.HandleOrders
  split_ifs
  · exact Run.keeps_bind _ _ (onHeap_handleNewOrder_keeps W _)
      (fun err => onHeap_logAndReturn_keeps err)
  · exact Run.keeps_bind _ _ (onHeap_handleCancelOrder_keeps W _)
      (fun err => onHeap_logAndReturn_keeps err)
  · exact Run.keeps_bind _ _ (onHeap_handleInvalidateMakerOrders_keeps W _)
      (fun err => onHeap_logAndReturn_keeps err)
  · exact Run.keeps_bind _ _ (onHeap_handleInvalidateTakerOrders_keeps W _)
      (fun err => onHeap_logAndReturn_keeps err)
  · exact Run.keeps_bind _ _ (Run.keeps_emit _) (fun _ => Run.keeps_pure _)

theorem onHeap_publishResponse_keeps {σ : Type} (W : Env σ) (res : Option EngineResponse) :
    (OnHeap.publishResponse W res).KeepsEngine :=
  Run.keeps_bind _ _ (Run.keeps_call _)
    (fun err => Run.keeps_bind _ _ (Run.keeps_emit _) (fun _ => onHeap_logAndReturn_keeps err))

theorem onHeap_syncOrder_keeps {σ : Type} (W : Env σ) (ob : OrderBook) (o : Order) :
    (OnHeap.syncOrder W ob o).KeepsEngine := by
  unfold OnHeap.syncOrder
  split_ifs
  · refine Run.keeps_bind _ _ (Run.keeps_call _)
      (fun r => Run.keeps_bind _ _ (Run.keeps_emit _) (fun _ => ?_))
    rcases r with ⟨res, _ | err⟩
    · exact onHeap_publishResponse_keeps W res
    · exact onHeap_logAndReturn_keeps _
  · refine Run.keeps_bind _ _ (Run.keeps_call _)
      (fun r => Run.keeps_bind _ _ (Run.keeps_emit _) (fun _ => ?_))
    rcases r with ⟨res, _ | err⟩
    · exact onHeap_publishResponse_keeps W res
    · exact onHeap_logAndReturn_keeps _
  · exact onHeap_publishResponse_keeps W _

theorem onHeap_syncLoop_keeps {σ : Type} (W : Env σ) (ob : OrderBook) (os : List Order) :
    (OnHeap.syncLoop W ob os).KeepsEngine := by
  induction os with
  | nil => exact Run.keeps_pure _
  | cons o rest ih =>
    unfold OnHeap.syncLoop
    refine Run.keeps_bind _ _ (onHeap_syncOrder_keeps W ob o) (fun err => ?_)
    cases err with
    | none => exact ih
    | some err => exact Run.keeps_pure _

/-- No statement of `SyncOrderBook` writes the registry. -/
theorem onHeap_SyncOrderBook_keeps {σ : Type} (W : Env σ) (p : Pair) :
    (OnHeap.SyncOrderBook W p).KeepsEngine := by
  unfold OnHeap.SyncOrderBook
  refine Run.keeps_bind _ _ (Run.keeps_emit _)
    (fun _ => Run.keeps_bind _ _ (Run.keeps_readBook _) (fun ob => ?_))
  cases ob with
  | none => exact Run.keeps_pure _
  | some ob =>
    dsimp only
    split_ifs
    · exact Run.keeps_pure _
    · refine Run.keeps_bind _ _ (Run.keeps_call _)
        (fun r => Run.keeps_bind _ _ (Run.keeps_emit _) (fun _ => ?_))
      rcases r with ⟨orders, _ | err⟩
      · exact Run.keeps_bind _ _ (onHeap_syncLoop_keeps W ob orders)
          (fun _ => Run.keeps_pure _)
      · exact Run.keeps_bind _ _ (Run.keeps_emit _) (fun _ => Run.keeps_pure _)

theorem onHeap_step_keeps {σ : Type} (W : Env σ) (c : Call) :
    (OnHeap.step W c).KeepsEngine := by
  cases c with
  | handleOrders msg =>
    exact Run.keeps_bind _ _ (onHeap_HandleOrders_keeps W msg) (fun _ => Run.keeps_pure _)
  | syncOrderBook p => exact onHeap_SyncOrderBook_keeps W p

theorem onHeap_run_keeps {σ : Type} (W : Env σ) (calls : List Call) :
    ∀ h : Heap σ, (OnHeap.run W calls h).engine = h.engine := by
  induction calls with
  | nil => intro h; rfl
  | cons c cs ih =>
    intro h
    simp only [OnHeap.run]
    rw [ih, onHeap_step_keeps W c h]

/-! ## The running engine: agreement with the functional embedding -/

theorem onHeap_handleCancelOrder_eq {σ : Type} (W : Env σ) (bytes : Bytes) (h : Heap σ) :
    OnHeap.handleCancelOrder W bytes h
      = ((handleCancelOrder W h.engine bytes h.st).1,
          ⟨h.engine, (handleCancelOrder W h.engine bytes h.st).2⟩) := by
  simp only [OnHeap.handleCancelOrder, handleCancelOrder, Run.bind_apply, Run.emit]
  cases W.unmarshalOrder bytes with
  | error err => simp [OnHeap.logAndReturn, Run.bind_apply, Run.pure_apply, Run.emit]
  | ok o =>
    dsimp only
    cases W.orderPairCode o with
    | error err => simp [OnHeap.logAndReturn, Run.bind_apply, Run.pure_apply, Run.emit]
    | ok code =>
      simp only [Run.bind_apply, Run.readBook]
      cases hb : h.engine.book code with
      | none => simp [Run.pure_apply]
      | some ob =>
        rcases hc : W.cancelOrder ob o h.st.ext with ⟨_ | err, x⟩ <;>
          simp [hc, OnHeap.logAndReturn, Run.bind_apply, Run.pure_apply, Run.emit, Run.call,
            St.emit]

theorem onHeap_handleInvalidateMakerOrders_eq {σ : Type} (W : Env σ) (bytes : Bytes)
    (h : Heap σ) :
    OnHeap.handleInvalidateMakerOrders W bytes h
      = ((handleInvalidateMakerOrders W h.engine bytes h.st).1,
          ⟨h.engine, (handleInvalidateMakerOrders W h.engine bytes h.st).2⟩) := by
  simp only [OnHeap.handleInvalidateMakerOrders, handleInvalidateMakerOrders, Run.bind_apply,
    Run.emit]
  cases W.unmarshalMatches bytes with
  | error err => simp [OnHeap.logAndReturn, Run.bind_apply, Run.pure_apply, Run.emit]
  | ok m =>
    dsimp only
    cases W.matchesPairCode m with
    | error err => simp [OnHeap.logAndReturn, Run.bind_apply, Run.pure_apply, Run.emit]
    | ok code =>
      simp only [Run.bind_apply, Run.readBook]
      cases hb : h.engine.book code with
      | none => simp [Run.pure_apply]
      | some ob =>
        rcases hc : W.invalidateMakerOrders ob m h.st.ext with ⟨_ | err, x⟩ <;>
          simp [hc, OnHeap.logAndReturn, Run.bind_apply, Run.pure_apply, Run.emit, Run.call,
            St.emit]

theorem onHeap_handleInvalidateTakerOrders_eq {σ : Type} (W : Env σ) (bytes : Bytes)
    (h : Heap σ) :
    OnHeap.handleInvalidateTakerOrders W bytes h
      = ((handleInvalidateTakerOrders W h.engine bytes h.st).1,
          ⟨h.engine, (handleInvalidateTakerOrders W h.engine bytes h.st).2⟩) := by
  simp only [OnHeap.handleInvalidateTakerOrders, handleInvalidateTakerOrders, Run.bind_apply,
    Run.emit]
  cases W.unmarshalMatches bytes with
  | error err => simp [OnHeap.logAndReturn, Run.bind_apply, Run.pure_apply, Run.emit]
  | ok m =>
    dsimp only
    cases W.matchesPairCode m with
    | error err => simp [OnHeap.logAndReturn, Run.bind_apply, Run.pure_apply, Run.emit]
    | ok code =>
      simp only [Run.bind_apply, Run.readBook]
      cases hb : h.engine.book code with
      | none => simp [Run.bind_apply, Run.pure_apply, Run.emit]
      | some ob =>
        rcases hc : W.invalidateTakerOrders ob m h.st.ext with ⟨_ | err, x⟩ <;>
          simp [hc, OnHeap.logAndReturn, Run.bind_apply, Run.pure_apply, Run.emit, Run.call,
            St.emit]

theorem onHeap_logAndReturn_eq {σ : Type} (r : Option GoError × St σ) (e : Engine) :
    OnHeap.logAndReturn r.1 ⟨e, r.2⟩ = ((afterHandler r).1, ⟨e, (afterHandler r).2⟩) := by
  rcases r with ⟨_ | err, s⟩ <;>
    simp [OnHeap.logAndReturn, afterHandler, Run.bind_apply, Run.pure_apply, Run.emit]

/-- The statements of `HandleOrders` compute what the functional embedding
computes, on the same `Engine` object. -/
theorem onHeap_HandleOrders_eq {σ : Type} (W : Env σ) (msg : Message) (h : Heap σ) :
    OnHeap.HandleOrders W msg h
      = ((HandleOrders W h.engine msg h.st).1, ⟨h.engine, (HandleOrders W h.engine msg h.st).2⟩) := by
  unfold OnHeap.HandleOrders HandleOrders
  split_ifs
  · rw [Run.bind_apply, onHeap_handleNewOrder_eq]
    exact onHeap_logAndReturn_eq _ _
  · rw [Run.bind_apply, onHeap_handleCancelOrder_eq]
    exact onHeap_logAndReturn_eq _ _
  · rw [Run.bind_apply, onHeap_handleInvalidateMakerOrders_eq]
    exact onHeap_logAndReturn_eq _ _
  · rw [Run.bind_apply, onHeap_handleInvalidateTakerOrders_eq]
    exact onHeap_logAndReturn_eq _ _
  · simp [Run.bind_apply, Run.pure_apply, Run.emit]

theorem onHeap_publishResponse_eq {σ : Type} (W : Env σ) (res : Option EngineResponse)
    (h : Heap σ) :
    OnHeap.publishResponse W res h
      = ((publishResponse W res h.st).1, ⟨h.engine, (publishResponse W res h.st).2⟩) := by
  unfold OnHeap.publishResponse publishResponse
  rcases hp : W.publishEngineResponse res h.st.ext with ⟨_ | err, x⟩ <;>
    simp [hp, OnHeap.logAndReturn, Run.bind_apply, Run.pure_apply, Run.emit, Run.call, St.emit]

theorem onHeap_syncOrder_eq {σ : Type} (W : Env σ) (ob : OrderBook) (o : Order) (h : Heap σ) :
    OnHeap.syncOrder W ob o h
      = ((syncOrder W ob o h.st).1, ⟨h.engine, (syncOrder W ob o h.st).2⟩) := by
  unfold OnHeap.syncOrder syncOrder
  split_ifs
  · rcases hc : W.sellOrder ob o h.st.ext with ⟨⟨res, _ | err⟩, x⟩
    · simp only [Run.bind_apply, Run.call, Run.emit, hc]
      rw [onHeap_publishResponse_eq]
    · simp [hc, OnHeap.logAndReturn, Run.bind_apply, Run.pure_apply, Run.emit, Run.call,
        St.emit]
  · rcases hc : W.buyOrder ob o h.st.ext with ⟨⟨res, _ | err⟩, x⟩
    · simp only [Run.bind_apply, Run.call, Run.emit, hc]
      rw [onHeap_publishResponse_eq]
    · simp [hc, OnHeap.logAndReturn, Run.bind_apply, Run.pure_apply, Run.emit, Run.call,
        St.emit]
  · rw [onHeap_publishResponse_eq]

theorem onHeap_syncLoop_eq {σ : Type} (W : Env σ) (ob : OrderBook) (os : List Order) :
    ∀ h : Heap σ, OnHeap.syncLoop W ob os h
      = ((syncLoop W ob os h.st).1, ⟨h.engine, (syncLoop W ob os h.st).2⟩) := by
  induction os with
  | nil => intro h; rfl
  | cons o rest ih =>
    intro h
    simp only [OnHeap.syncLoop, syncLoop, Run.bind_apply]
    rw [onHeap_syncOrder_eq]
    rcases hs : syncOrder W ob o h.st with ⟨_ | err, s1⟩
    · simp only
      rw [ih]
    · simp [Run.pure_apply]

/-- The statements of `SyncOrderBook` compute what the functional embedding
computes, on the same `Engine` object. -/
theorem onHeap_SyncOrderBook_eq {σ : Type} (W : Env σ) (p : Pair) (h : Heap σ) :
    OnHeap.SyncOrderBook W p h
      = ((SyncOrderBook W h.engine p h.st).1,
          ⟨h.engine, (SyncOrderBook W h.engine p h.st).2⟩) := by
  simp only [OnHeap.SyncOrderBook, SyncOrderBook, Run.bind_apply, Run.emit, Run.readBook]
  cases hb : h.engine.book (W.pairCode p) with
  | none => simp [Run.pure_apply]
  | some ob =>
    dsimp only
    split_ifs
    · simp [Run.pure_apply]
    · rcases hg : W.getNewOrders ob.topic h.st.ext with ⟨⟨orders, _ | err⟩, x⟩
      · simp only [Run.bind_apply, Run.call, Run.emit, St.emit, hg]
        rw [onHeap_syncLoop_eq]
        simp [Run.pure_apply]
      · simp [hg, Run.bind_apply, Run.pure_apply, Run.emit, Run.call, St.emit]

/-- C12. The registry is read-only after start-up.  Run as statements on the
receiver `e *Engine`, `HandleOrders` and `SyncOrderBook` leave `e.orderbooks` as
it was, keys and the book under each key, for every message and every pair and
on every path (nil, an error, the fault on a nil book); so does any sequence of
such calls.  What the statements return and do to the collaborators is what
the functional embedding of the two methods computes. -/
theorem registry_read_only {σ : Type} (W : Env σ) (calls : List Call) (h : Heap σ) :
    (∀ msg, (OnHeap.HandleOrders W msg h).2.engine.orderbooks = h.engine.orderbooks) ∧
      (∀ p, (OnHeap.SyncOrderBook W p h).2.engine.orderbooks = h.engine.orderbooks) ∧
      (OnHeap.run W calls h).engine.orderbooks = h.engine.orderbooks ∧
      (∀ code, (OnHeap.run W calls h).engine.book code = h.engine.book code) ∧
      (∀ msg, OnHeap.HandleOrders W msg h
        = ((HandleOrders W h.engine msg h.st).1,
            ⟨h.engine, (HandleOrders W h.engine msg h.st).2⟩)) ∧
      (∀ p, OnHeap.SyncOrderBook W p h
        = ((SyncOrderBook W h.engine p h.st).1,
            ⟨h.engine, (SyncOrderBook W h.engine p h.st).2⟩)) := by
  refine ⟨fun msg => ?_, fun p => ?_, ?_, fun code => ?_, fun msg => ?_, fun p => ?_⟩
  · rw [onHeap_HandleOrders_keeps W msg h]
  · rw [onHeap_SyncOrderBook_keeps W p h]
  · rw [onHeap_run_keeps W calls h]
  · rw [onHeap_run_keeps W calls h]
  · exact onHeap_HandleOrders_eq W msg h
  · exact onHeap_SyncOrderBook_eq W p h

end DexEngine
